import Mathlib

/-!
Verification of the iris_agent log-processing application.

The Python sources are shallowly embedded: pandas dataframes become a
`DataFrame` structure (a column-name list plus rows of string cells, matching
the `df.astype(str)` views the code takes), Python exceptions become explicit
`Except` results, wall-clock times become rationals, and the two external
tabular parsers (`pd.read_csv` / `pd.read_excel`) are abstracted as oracle
parameters.  Every definition is translated from the corresponding Python
function in `src/`, keeping its name.
-/

/-! ## String primitives

Models of the Python string operations the services use: the `in` substring
operator, `str.lower` (the log payloads are ASCII, so the ASCII case map is
used), and lexicographic string comparison (Python compares strings by code
point, as Lean does). -/

/-- Model of the Python substring operator: `listContainsSeq pat s` is true
iff the character sequence `pat` occurs contiguously inside `s`. -/
def listContainsSeq (pat : List Char) : List Char → Bool
  | [] => pat.isEmpty
  | c :: cs => pat.isPrefixOf (c :: cs) || listContainsSeq pat cs

/-- Python `str.lower` on one character, restricted to the ASCII range that
occurs in these OCPP logs: uppercase ASCII letters shift down by 32, every
other character is unchanged. -/
def pyLower (c : Char) : Char :=
  if h : 65 ≤ c.toNat ∧ c.toNat ≤ 90 then
    Char.ofNatAux (c.toNat + 32) (Or.inl (by omega))
  else c

/-- Python `str.lower` on a whole string. -/
def strLower (s : String) : String := ⟨s.data.map pyLower⟩

/-- Case-sensitive substring test on strings (Python `needle in haystack`). -/
def strContains (haystack needle : String) : Bool :=
  listContainsSeq needle.data haystack.data

/-- Case-insensitive substring test, as performed by
`pandas.Series.str.contains(pat, case=False)` for a pattern without regex
metacharacters. -/
def strContainsCI (haystack needle : String) : Bool :=
  strContains (strLower haystack) (strLower needle)

/-- Boolean lexicographic string comparison, the sort key comparison Python
uses when sorting by a string-valued key. -/
def strLeB (a b : String) : Bool := decide (a ≤ b)

/-! ## Dataframes

`FileProcessor` only ever looks at dataframes through `df.astype(str)`, cell
lookups that are immediately passed to `str`, and row filtering/truncation, so
a dataframe is modelled as a list of column names plus rows of string cells.
Row indices are the pandas default `RangeIndex`, i.e. the row's position. -/

structure DataFrame where
  columns : List String
  rows : List (List String)
deriving DecidableEq, Repr

/-- Rows of a dataframe paired with their (positional) index, as produced by
`df.iterrows()`. -/
def enumRows (df : DataFrame) : List (Nat × List String) := df.rows.enum

/-- Pandas `row.get(col, '')`: the cell in column `col`, or `''` when the
column does not exist. -/
def rowGet (columns : List String) (row : List String) (col : String) : String :=
  match columns.indexOf? col with
  | some i => row.getD i ""
  | none => ""

/-- One entry of the boolean mask
`df.astype(str).apply(lambda x: x.str.contains(pat, case=False, na=False)).any(axis=1)`:
does any cell of the row contain `pat`, case-insensitively? -/
def rowMatches (pat : String) (row : List String) : Bool :=
  row.any (fun cell => strContainsCI cell pat)

/-- The heartbeat mask of `_filter_heartbeat_and_boot_notification_messages`. -/
def heartbeat_mask (df : DataFrame) : List Bool :=
  df.rows.map (rowMatches "Heart")

/-- The boot-notification mask of
`_filter_heartbeat_and_boot_notification_messages`. -/
def boot_notification_mask (df : DataFrame) : List Bool :=
  df.rows.map (rowMatches "BootNotification")

/-- Boolean-mask row selection `df[mask]`: keep the rows whose mask entry is
true, in order. -/
def maskSelect : List (List String) → List Bool → List (List String)
  | [], _ => []
  | _, [] => []
  | r :: rs, b :: bs => if b then r :: maskSelect rs bs else maskSelect rs bs

/-- `FileProcessor._filter_heartbeat_and_boot_notification_messages`: build the
two case-insensitive any-cell masks, combine them with
`(heartbeat_mask == False) & (boot_notification_mask == False)` and select. -/
def filter_heartbeat_and_boot_notification_messages (df : DataFrame) : DataFrame :=
  { df with
    rows := maskSelect df.rows
      (List.zipWith (fun h b => !h && !b) (heartbeat_mask df) (boot_notification_mask df)) }

/-- `FileProcessor._filter_iris_cms_logs`: drop every row in which any cell
contains (case-insensitively) one of the four alternatives of the joined
regex `HeartBeat|BootNotification|StatusNotificationResponse|MeterValuesResponse`. -/
def filter_iris_cms_logs (df : DataFrame) : DataFrame :=
  { df with
    rows := maskSelect df.rows
      ((df.rows.map (fun r =>
        rowMatches "HeartBeat" r || rowMatches "BootNotification" r ||
        rowMatches "StatusNotificationResponse" r || rowMatches "MeterValuesResponse" r)).map
        (fun m => !m)) }

/-- The row-count truncation of `parse_file_to_text`:
`if len(df) > max_dataframe_rows: df = df.head(max_dataframe_rows)`. -/
def limit_rows (df : DataFrame) (max_rows : Nat) : DataFrame :=
  if df.rows.length > max_rows then { df with rows := df.rows.take max_rows } else df

/-! ## Transaction-id extraction

`FileProcessor._extract_transaction_id_from_payload` runs `re.search` with
eight patterns in a fixed order.  Each pattern is the literal key
(one of the casings of `"transactionId":` with its surrounding quotes and
colon), then `\s*`, then the captured number: `(\d+)` or `(\d+\.\d+)`,
optionally wrapped in double quotes.  For these patterns Python's
backtracking regex engine is equivalent to deterministic greedy matching,
because the character consumed after each greedy run (`"`, `.` or
end-of-pattern) can never itself be matched by the preceding class
(`\s` or `\d`); the matcher below therefore consumes greedily and
scans for the leftmost position where the whole pattern matches,
exactly as `re.search` does. -/

/-- One of the eight regex alternatives: the literal key, whether the number
is wrapped in quotes, and whether it carries a mandatory fractional part. -/
structure TxPattern where
  key : List Char
  quoted : Bool
  frac : Bool
deriving DecidableEq, Repr

/-- Python regex `\s` (the ASCII part relevant to these logs). -/
def isPySpace (c : Char) : Bool :=
  c = ' ' || c = '\t' || c = '\n' || c = '\x0d' || c = '\x0b' || c = '\x0c'

/-- Consume one expected literal character. -/
def expectChar (c : Char) : List Char → Option (List Char)
  | [] => none
  | x :: xs => if x = c then some xs else none

/-- Greedy `\d+`: the (nonempty) leading digit run and the remainder. -/
def readDigits (s : List Char) : Option (List Char × List Char) :=
  if (s.takeWhile Char.isDigit).isEmpty then none
  else some (s.takeWhile Char.isDigit, s.dropWhile Char.isDigit)

/-- The captured number: `\d+` when `frac` is false, `\d+\.\d+` otherwise. -/
def readNumber (frac : Bool) (s : List Char) : Option (List Char × List Char) :=
  match readDigits s with
  | none => none
  | some (d1, s1) =>
    if frac then
      match expectChar '.' s1 with
      | none => none
      | some s2 =>
        match readDigits s2 with
        | none => none
        | some (d2, s3) => some (d1 ++ '.' :: d2, s3)
    else some (d1, s1)

/-- Match the part of a pattern after `\s*` at the head of `s` and return the
captured group: the number, optionally wrapped in literal quotes. -/
def matchGroupAt (quoted frac : Bool) (s : List Char) : Option (List Char) :=
  if quoted then
    match expectChar '"' s with
    | none => none
    | some s1 =>
      match readNumber frac s1 with
      | none => none
      | some (g, s2) =>
        match expectChar '"' s2 with
        | none => none
        | some _ => some g
  else
    match readNumber frac s with
    | none => none
    | some (g, _) => some g

/-- Match a whole pattern at the head of `s`: the literal key, then greedy
`\s*`, then the captured number. -/
def matchPatternAt (p : TxPattern) (s : List Char) : Option (List Char) :=
  if p.key.isPrefixOf s then
    matchGroupAt p.quoted p.frac ((s.drop p.key.length).dropWhile isPySpace)
  else none

/-- Python `re.search`: the match at the leftmost position where the whole
pattern matches, scanning left to right. -/
def reSearch (p : TxPattern) : List Char → Option (List Char)
  | [] => none
  | c :: cs =>
    match matchPatternAt p (c :: cs) with
    | some g => some g
    | none => reSearch p cs

/-- The literal key of a pattern: `"` then the key body then `":`. -/
def keyOf (body : List Char) : List Char := '"' :: body ++ ['"', ':']

/-- Key body `transactionId`. -/
def kbCamel : List Char := ("transactionId").data

/-- Key body `transactionid`. -/
def kbLower : List Char := ("transactionid").data

/-- Key body `TransactionId`. -/
def kbPascal : List Char := ("TransactionId").data

/-- The eight patterns of `_extract_transaction_id_from_payload`, in the order
the code tries them. -/
def txPatterns : List TxPattern :=
  [ ⟨keyOf kbCamel, false, false⟩,
    ⟨keyOf kbCamel, true,  false⟩,
    ⟨keyOf kbCamel, false, true⟩,
    ⟨keyOf kbCamel, true,  true⟩,
    ⟨keyOf kbLower, false, false⟩,
    ⟨keyOf kbLower, true,  false⟩,
    ⟨keyOf kbPascal, false, false⟩,
    ⟨keyOf kbPascal, true,  false⟩ ]

/-- Numeric value of a decimal digit. -/
def digitVal (c : Char) : Nat := c.toNat - 48

/-- Value of a decimal digit string. -/
def digitsToNat (ds : List Char) : Nat :=
  ds.foldl (fun a c => 10 * a + digitVal c) 0

/-- Python `int(float(g))` on a captured group `g` (decimal digits, optionally
followed by `.` and more digits), modelled as truncation at the decimal
point.  This is NOT what Python computes for arbitrary groups: `float` first
rounds to the nearest IEEE-754 double, so `int(float("2.9999999999999999"))`
is 3 (the decimal rounds up to the double 3.0), integer ids at or above 2^53
lose precision, and groups of roughly 310 digits or more make `int(float(g))`
raise an uncaught `OverflowError`.  The model and Python agree exactly on
groups with at most 15 significant digits: an integer below 10^15 is below
2^53 and hence exactly representable, and a decimal with at most 15
significant digits round-trips through the nearest double without crossing
another 15-digit decimal (the IEEE-754 double round-trip guarantee), so
truncating the rounded double equals truncating the decimal.  The extraction
theorems below therefore quantify only over groups in that range. -/
def intFloatTrunc (g : List Char) : Int :=
  (digitsToNat (g.takeWhile Char.isDigit) : Int)

/-- Try the patterns in order; the first whose search succeeds wins. -/
def searchPatternsList : List TxPattern → List Char → Option Int
  | [], _ => none
  | p :: ps, s =>
    match reSearch p s with
    | some g => some (intFloatTrunc g)
    | none => searchPatternsList ps s

/-- `FileProcessor._extract_transaction_id_from_payload`. -/
def extract_transaction_id_from_payload (payload : String) : Option Int :=
  searchPatternsList txPatterns payload.data

/-! ## Transaction sessions -/

/-- A transaction session (`models/analysis.py`): the id plus the
`(index, row)` message pairs; the optional metadata fields keep their
constructor defaults and are omitted, since `FileProcessor` never sets them. -/
structure TransactionSession where
  transaction_id : Int
  messages : List (Nat × List String)
deriving DecidableEq, Repr

/-- The `payLoadData` cell of a row, as `str(row.get('payLoadData', ''))`. -/
def payloadOf (df : DataFrame) (row : List String) : String :=
  rowGet df.columns row "payLoadData"

/-- The ten f-string substring patterns `_get_messages_for_transaction` and
`_get_remaining_messages` build for a transaction id. -/
def txPatternStrs (txId : Int) : List (List Char) :=
  [ ("\"transactionId\":").data ++ (toString txId).data,
    ("\"transactionId\":\"").data ++ (toString txId).data ++ ['"'],
    ("\"transactionId\": ").data ++ (toString txId).data,
    ("\"transactionId\": \"").data ++ (toString txId).data ++ ['"'],
    ("\"transactionId\":").data ++ (toString txId).data ++ (".0").data,
    ("\"transactionId\":\"").data ++ (toString txId).data ++ (".0\"").data,
    ("\"transactionid\":").data ++ (toString txId).data,
    ("\"transactionid\":\"").data ++ (toString txId).data ++ ['"'],
    ("\"TransactionId\":").data ++ (toString txId).data,
    ("\"TransactionId\":\"").data ++ (toString txId).data ++ ['"'] ]

/-- Does a payload contain one of the substring patterns for `txId`
(the `any(pattern in payload for pattern in tx_patterns)` test)? -/
def payloadMatchesTx (payload : String) (txId : Int) : Bool :=
  (txPatternStrs txId).any (fun pat => listContainsSeq pat payload.data)

/-- `FileProcessor._extract_transaction_ids`.  The Python guard is literally
`if 'transactionId' in payload.lower():` — the mixed-case literal tested
against the lowercased payload.  The resulting set is modelled as the
deduplicated list of extracted ids (the code only consumes it through
`sorted`, so the set's iteration order is irrelevant). -/
def extract_transaction_ids (df : DataFrame) : List Int :=
  (df.rows.filterMap (fun row =>
    let payload := payloadOf df row
    if listContainsSeq ("transactionId").data (strLower payload).data then
      extract_transaction_id_from_payload payload
    else none)).dedup

/-- `FileProcessor._get_messages_for_transaction`: the `(index, row)` pairs
whose payload contains one of the patterns for `tx_id`, stably sorted by the
row's `real_time` value (Python `list.sort` is stable, as is `mergeSort`). -/
def get_messages_for_transaction (df : DataFrame) (tx_id : Int) : List (Nat × List String) :=
  ((enumRows df).filter (fun ir => payloadMatchesTx (payloadOf df ir.2) tx_id)).mergeSort
    (fun a b => strLeB (rowGet df.columns a.2 "real_time") (rowGet df.columns b.2 "real_time"))

/-- `FileProcessor._extract_transaction_sessions`: one session per id in
`sorted(transaction_ids)` whose message list is nonempty. -/
def extract_transaction_sessions (df : DataFrame) : List TransactionSession :=
  ((extract_transaction_ids df).mergeSort (fun a b => decide (a ≤ b))).filterMap
    (fun tx_id =>
      let messages := get_messages_for_transaction df tx_id
      if messages.isEmpty then none else some ⟨tx_id, messages⟩)

/-- `FileProcessor._get_remaining_messages`: the `(index, row)` pairs whose
payload matches no session's patterns, stably sorted by `real_time`. -/
def get_remaining_messages (df : DataFrame) (sessions : List TransactionSession) :
    List (Nat × List String) :=
  ((enumRows df).filter (fun ir =>
    !(sessions.any (fun s => payloadMatchesTx (payloadOf df ir.2) s.transaction_id)))).mergeSort
    (fun a b => strLeB (rowGet df.columns a.2 "real_time") (rowGet df.columns b.2 "real_time"))

/-! ## Rate limiter

`services/rate_limiter.py`.  `time.time()` values are modelled as rationals
and passed explicitly to each call; the per-session dictionary becomes a
function from session id to optional session data. -/

/-- One session's entry in `request_counts`. -/
structure SessionData where
  count : Nat
  last_reset : ℚ
deriving DecidableEq, Repr

/-- The rate limiter's state. -/
structure RateLimiter where
  max_requests_per_minute : Nat
  request_counts : String → Option SessionData

/-- A fresh rate limiter (`RateLimiter.__init__`). -/
def RateLimiter.init (max_requests_per_minute : Nat) : RateLimiter :=
  ⟨max_requests_per_minute, fun _ => none⟩

/-- Result of `check_rate_limit`: normal return `True`, or a raised
`RateLimitError`. -/
inductive CheckResult where
  | allowed
  | rateLimitError (msg : String)
deriving DecidableEq, Repr

/-- Whether a `check_rate_limit` call raised. -/
def CheckResult.isError : CheckResult → Bool
  | .allowed => false
  | .rateLimitError _ => true

/-- `RateLimiter.check_rate_limit` at wall-clock time `current_time`:
initialize the session entry if absent, zero the counter if more than 60
seconds have passed since `last_reset`, raise `RateLimitError` if the counter
has reached the maximum, otherwise increment it.  Returns the result together
with the post-call state (on a raise, the dictionary keeps the
initialized/reset entry, exactly as in Python). -/
def check_rate_limit (rl : RateLimiter) (current_time : ℚ) (session_id : String) :
    CheckResult × RateLimiter :=
  let data0 : SessionData :=
    match rl.request_counts session_id with
    | some d => d
    | none => ⟨0, current_time⟩
  let data1 : SessionData :=
    if current_time - data0.last_reset > 60 then ⟨0, current_time⟩ else data0
  if data1.count ≥ rl.max_requests_per_minute then
    (CheckResult.rateLimitError "Rate limit exceeded. Please wait a moment before trying again.",
      { rl with request_counts := fun s => if s = session_id then some data1 else rl.request_counts s })
  else
    (CheckResult.allowed,
      { rl with request_counts := fun s =>
          if s = session_id then some ⟨data1.count + 1, data1.last_reset⟩
          else rl.request_counts s })

/-- `RateLimiter.get_remaining_requests` (read-only): the full quota for an
unknown or expired session, otherwise `max(0, max - count)`, which is exactly
truncated subtraction on naturals. -/
def get_remaining_requests (rl : RateLimiter) (current_time : ℚ) (session_id : String) : Nat :=
  match rl.request_counts session_id with
  | none => rl.max_requests_per_minute
  | some d =>
    if current_time - d.last_reset > 60 then rl.max_requests_per_minute
    else rl.max_requests_per_minute - d.count

/-- `RateLimiter.reset_session`: zero an existing session's counter and stamp
`last_reset`; unknown sessions are untouched. -/
def reset_session (rl : RateLimiter) (current_time : ℚ) (session_id : String) : RateLimiter :=
  match rl.request_counts session_id with
  | none => rl
  | some _ =>
    { rl with request_counts := fun s =>
        if s = session_id then some ⟨0, current_time⟩ else rl.request_counts s }

/-- One call against the rate limiter, tagged with the wall-clock time at
which it happens. -/
inductive RLOp where
  | check (t : ℚ) (sid : String)
  | remaining (t : ℚ) (sid : String)
  | reset (t : ℚ) (sid : String)

/-- State transition of one call (`get_remaining_requests` reads only). -/
def stepOp (rl : RateLimiter) (op : RLOp) : RateLimiter :=
  match op with
  | .check t sid => (check_rate_limit rl t sid).2
  | .remaining _ _ => rl
  | .reset t sid => reset_session rl t sid

/-- The state after a sequence of calls against a fresh rate limiter. -/
def runOps (max_requests_per_minute : Nat) (ops : List RLOp) : RateLimiter :=
  ops.foldl stepOp (RateLimiter.init max_requests_per_minute)

/-- The request count currently stored for a session (0 when absent). -/
def countOf (rl : RateLimiter) (session_id : String) : Nat :=
  match rl.request_counts session_id with
  | some d => d.count
  | none => 0

/-- Spec-side definition, from the claim's words: the count of the current
window — the stored count, taken as 0 when the session is unknown or its
window (more than 60 seconds old) has expired. -/
def windowCountSpec (rl : RateLimiter) (current_time : ℚ) (session_id : String) : Nat :=
  match rl.request_counts session_id with
  | none => 0
  | some d => if current_time - d.last_reset > 60 then 0 else d.count

/-- The effective session entry a `check_rate_limit` call tests against the
limit: the stored entry, replaced by a fresh zeroed entry when the session is
unknown or its window has expired.  (`data1` in the function body; for an
unknown session the expiry test compares the call time with itself, so the
fresh entry is never re-reset.) -/
def checkData1 (rl : RateLimiter) (current_time : ℚ) (session_id : String) : SessionData :=
  match rl.request_counts session_id with
  | some d => if current_time - d.last_reset > 60 then ⟨0, current_time⟩ else d
  | none => ⟨0, current_time⟩

/-! ## File-processing pipeline

`FileProcessor.parse_file_to_text`.  The two pandas readers are oracle
parameters (`Except` with the raised exception's message as the error); the
`filtered_df.to_csv('filtered_df.csv', ...)` side effect is recorded as an
explicit effect value.  The function body contains a bare `return` right
after that write (file_processor.py lines 69-72), so on success the Python
function returns `None`; the success value is therefore `Option String`,
and the lines below the bare `return` (the `_convert_to_text_format` call)
are dead code and have no counterpart in the result. -/

/-- The Python exceptions that can travel through `parse_file_to_text`:
`FileSizeError`, `FileProcessingError`, or an exception raised by a pandas
reader (carrying its `str(e)` message). -/
inductive PyExc where
  | fileSizeError (msg : String)
  | fileProcessingError (msg : String)
  | readerError (msg : String)
deriving DecidableEq, Repr

/-- Python `str(e)` for the exceptions above: the message. -/
def pyExcMessage : PyExc → String
  | .fileSizeError msg => msg
  | .fileProcessingError msg => msg
  | .readerError msg => msg

/-- `utils/validators.validate_file_size`: raise `FileSizeError` when the
UTF-8 encoding of the content exceeds `max_size_mb` megabytes, else `True`.
(`len(file_content.encode())` is the UTF-8 byte size.) -/
def validate_file_size (file_content : String) (max_size_mb : Nat) : Except PyExc Bool :=
  if file_content.utf8ByteSize > max_size_mb * 1024 * 1024 then
    .error (.fileSizeError ("File too large. Maximum size allowed: " ++ toString max_size_mb ++ "MB"))
  else .ok true

/-- An uploaded log file (`models/analysis.LogFile`). -/
structure LogFile where
  filename : String
  content : String
  file_type : String
  size_bytes : Nat
deriving DecidableEq, Repr

/-- The file processor's configuration (`FileProcessor.__init__`). -/
structure FileProcessor where
  max_file_size_mb : Nat
  max_dataframe_rows : Nat
deriving DecidableEq, Repr

/-- Observable side effect of `parse_file_to_text`: the
`filtered_df.to_csv('filtered_df.csv', index=False)` write. -/
inductive FPEffect where
  | writeCsv (df : DataFrame)
deriving DecidableEq, Repr

/-- `FileProcessor.parse_file_to_text`.  `parse_csv` and `read_excel` stand
for `pd.read_csv(StringIO(content))` and `pd.read_excel(content)`.  The
`try` body validates the size, parses by file type, truncates to
`max_dataframe_rows`, filters, writes the csv and then executes a bare
`return`; the `except Exception` clause rewraps any raised exception as
`FileProcessingError('Error processing file: ' + str(e))`. -/
def parse_file_to_text_body (self : FileProcessor)
    (parse_csv read_excel : String → Except String DataFrame)
    (log_file : LogFile) (use_iris_cms_filtering : Bool) :
    Except PyExc (Option String × List FPEffect) := do
  let _ ← validate_file_size log_file.content self.max_file_size_mb
  let df ←
    if log_file.file_type = "csv" then
      match parse_csv log_file.content with
      | .ok df => pure df
      | .error msg => throw (PyExc.readerError msg)
    else if log_file.file_type = "xlsx" then
      match read_excel log_file.content with
      | .ok df => pure df
      | .error msg => throw (PyExc.readerError msg)
    else
      throw (PyExc.fileProcessingError ("Unsupported file type: " ++ log_file.file_type))
  let df := limit_rows df self.max_dataframe_rows
  let filtered_df :=
    if use_iris_cms_filtering then filter_iris_cms_logs df
    else filter_heartbeat_and_boot_notification_messages df
  pure (none, [FPEffect.writeCsv filtered_df])

/-- The whole of `parse_file_to_text`: the `try` body above, with the
`except Exception` clause rewrapping any raised exception. -/
def FileProcessor.parse_file_to_text (self : FileProcessor)
    (parse_csv read_excel : String → Except String DataFrame)
    (log_file : LogFile) (use_iris_cms_filtering : Bool) :
    Except PyExc (Option String × List FPEffect) :=
  match parse_file_to_text_body self parse_csv read_excel log_file use_iris_cms_filtering with
  | .ok r => .ok r
  | .error e => .error (.fileProcessingError ("Error processing file: " ++ pyExcMessage e))

/-! ## Application entry (`app.py`, `IrisAgentApp.run`)

The Streamlit calls are modelled as an ordered list of render actions; the
query parameters are the request's key/value pairs and `now_iso` stands for
`datetime.now().isoformat()`. -/

/-- The render actions `IrisAgentApp.run` can perform, in order. -/
inductive RenderAction where
  | set_page_config
  | gradient_theme
  | health_json (status : String) (timestamp : String)
  | header
  | sidebar
  | main_content
deriving DecidableEq, Repr

/-- `IrisAgentApp.run`: page config and theme, then either the health-check
JSON payload followed by an immediate return (when the query parameter
`health` equals `check`), or the main UI. -/
def IrisAgentApp_run (query_params : List (String × String)) (now_iso : String) :
    List RenderAction :=
  [RenderAction.set_page_config, RenderAction.gradient_theme] ++
    (if query_params.lookup "health" = some "check" then
      [RenderAction.health_json "healthy" now_iso]
    else
      [RenderAction.header, RenderAction.sidebar, RenderAction.main_content])

/-! ## Canonical payloads for the extraction claims

Payloads of the shape `{"<key>":<spaces><value>}` used to state the
transaction-id extraction claim over arbitrary digit strings. -/

/-- An opening curly brace character. -/
def lbrace : Char := Char.ofNat 123

/-- A closing curly brace character. -/
def rbrace : Char := Char.ofNat 125

/-- The canonical JSON-style payload `{"<kb>":<ws><val>}`. -/
def mkPayload (kb ws val : List Char) : List Char :=
  lbrace :: keyOf kb ++ (ws ++ (val ++ [rbrace]))

/-- A quoted integer value `"<ds>"`. -/
def vIntQ (ds : List Char) : List Char := '"' :: ds ++ ['"']

/-- An unquoted fractional value `<ds>.<fs>`. -/
def vFrac (ds fs : List Char) : List Char := ds ++ '.' :: fs

/-- A quoted fractional value `"<ds>.<fs>"`. -/
def vFracQ (ds fs : List Char) : List Char := '"' :: ds ++ '.' :: fs ++ ['"']

/-- Invariant carried by every reachable rate-limiter state: the configured
maximum is unchanged and every stored count is at most that maximum. -/
def RLInv (maxR : Nat) (rl : RateLimiter) : Prop :=
  rl.max_requests_per_minute = maxR ∧
    ∀ sid d, rl.request_counts sid = some d → d.count ≤ maxR

/-! ## General list lemmas -/

/-- Any-distribution over a boolean disjunction of predicates. -/
theorem list_any_or {α : Type} (l : List α) (p q : α → Bool) :
    l.any (fun x => p x || q x) = (l.any p || l.any q) := by
  induction l with
  | nil => rfl
  | cons x xs ih => cases hp : p x <;> cases hq : q x <;> simp [List.any_cons, hp, hq, ih]

/-- Selecting with a mask built by zipping two row-indexed maps is filtering. -/
theorem maskSelect_zipWith_maps (f : Bool → Bool → Bool) (g h : List String → Bool)
    (rs : List (List String)) :
    maskSelect rs (List.zipWith (fun a b => f a b) (rs.map g) (rs.map h)) =
      rs.filter (fun r => f (g r) (h r)) := by
  induction rs with
  | nil => rfl
  | cons r rs ih =>
    simp only [List.map_cons, List.zipWith_cons_cons, maskSelect, List.filter_cons]
    rw [ih]

/-! ## C2: heartbeat / boot-notification filtering -/

/-- C2.  `_filter_heartbeat_and_boot_notification_messages` returns exactly the
rows in which no cell contains `Heart` or `BootNotification`
(case-insensitively): the rows kept are the filter, in original order, of the
input rows by the predicate "no cell matches either needle"; every matching
row is excluded and every non-matching row retained. -/
theorem C2_filter_heartbeat_and_boot_notification (df : DataFrame) :
    (filter_heartbeat_and_boot_notification_messages df).rows =
      df.rows.filter
        (fun r => !r.any (fun cell =>
          strContainsCI cell "Heart" || strContainsCI cell "BootNotification")) ∧
    (filter_heartbeat_and_boot_notification_messages df).columns = df.columns := by
  constructor
  · show maskSelect df.rows
      (List.zipWith (fun h b => !h && !b) (heartbeat_mask df) (boot_notification_mask df)) = _
    rw [heartbeat_mask, boot_notification_mask,
      maskSelect_zipWith_maps (fun h b => !h && !b) (rowMatches "Heart") (rowMatches "BootNotification")]
    apply List.filter_congr
    intro r _
    rw [rowMatches, rowMatches, list_any_or]
    cases hH : List.any r (fun cell => strContainsCI cell "Heart") <;>
      cases hB : List.any r (fun cell => strContainsCI cell "BootNotification") <;> simp [hH, hB]
  · rfl

/-! ## C9: health-check routing -/

/-- C9.  When the query parameter `health` equals `check`, `run` emits the
page config, the theme and the healthy-status JSON payload (with the
timestamp) and nothing else — none of the main UI; for any other value
(including an absent parameter) it renders the main UI and emits no status
payload. -/
theorem C9_run_health_check (query_params : List (String × String)) (now_iso : String) :
    (query_params.lookup "health" = some "check" →
      IrisAgentApp_run query_params now_iso =
        [RenderAction.set_page_config, RenderAction.gradient_theme,
         RenderAction.health_json "healthy" now_iso]) ∧
    (query_params.lookup "health" ≠ some "check" →
      IrisAgentApp_run query_params now_iso =
        [RenderAction.set_page_config, RenderAction.gradient_theme,
         RenderAction.header, RenderAction.sidebar, RenderAction.main_content]) := by
  constructor <;> intro h <;> simp [IrisAgentApp_run, h]

/-- Witness for C9 at a concrete request: a `health=check` query renders
exactly the health payload, and an empty query renders the main UI. -/
theorem C9_run_health_check_witness :
    IrisAgentApp_run [("health", "check")] "2026-10-12T00:00:00" =
      [RenderAction.set_page_config, RenderAction.gradient_theme,
       RenderAction.health_json "healthy" "2026-10-12T00:00:00"] ∧
    IrisAgentApp_run [] "2026-10-12T00:00:00" =
      [RenderAction.set_page_config, RenderAction.gradient_theme,
       RenderAction.header, RenderAction.sidebar, RenderAction.main_content] :=
  ⟨(C9_run_health_check [("health", "check")] "2026-10-12T00:00:00").1 (by decide),
   (C9_run_health_check [] "2026-10-12T00:00:00").2 (by decide)⟩

/-! ## C1 / C7 / C8: the parse pipeline -/

/-- Shared evaluation of a successful `parse_file_to_text` call: when the file
is a csv within the size limit and the reader succeeds, the call truncates,
filters, writes the csv and returns `None`. -/
theorem parse_file_to_text_ok_eq (self : FileProcessor)
    (parse_csv read_excel : String → Except String DataFrame)
    (lf : LogFile) (flag : Bool) (df : DataFrame)
    (hcsv : lf.file_type = "csv")
    (hsize : lf.content.utf8ByteSize ≤ self.max_file_size_mb * 1024 * 1024)
    (hread : parse_csv lf.content = .ok df) :
    self.parse_file_to_text parse_csv read_excel lf flag =
      .ok (none, [FPEffect.writeCsv
        ((if flag then filter_iris_cms_logs else filter_heartbeat_and_boot_notification_messages)
          (limit_rows df self.max_dataframe_rows))]) := by
  have hv : validate_file_size lf.content self.max_file_size_mb = .ok true := by
    unfold validate_file_size
    rw [if_neg (by omega)]
  unfold FileProcessor.parse_file_to_text parse_file_to_text_body
  rw [hv, hcsv]
  simp [hread]
  cases flag <;> rfl

/-- C1.  The code DOES NOT return the reformatted text: for every csv log file
within the size limit whose parse succeeds, `parse_file_to_text` writes the
filtered dataframe to `filtered_df.csv` and then hits the bare `return` left
at file_processor.py lines 69-72, so the call returns `None` — never a string
produced by `_convert_to_text_format`, whose call below the bare `return` is
dead code.  The caller's `if parsed_text:` in `app.py` is then falsy, so
nothing is ever sent to the model endpoint. -/
theorem C1_parse_file_to_text_returns_none (self : FileProcessor)
    (parse_csv read_excel : String → Except String DataFrame)
    (lf : LogFile) (flag : Bool) (df : DataFrame)
    (hcsv : lf.file_type = "csv")
    (hsize : lf.content.utf8ByteSize ≤ self.max_file_size_mb * 1024 * 1024)
    (hread : parse_csv lf.content = .ok df) :
    self.parse_file_to_text parse_csv read_excel lf flag =
      .ok (none, [FPEffect.writeCsv
        ((if flag then filter_iris_cms_logs else filter_heartbeat_and_boot_notification_messages)
          (limit_rows df self.max_dataframe_rows))]) :=
  parse_file_to_text_ok_eq self parse_csv read_excel lf flag df hcsv hsize hread

/-- Witness for C1: a concrete one-row csv within the size limit parses
successfully and the call returns `None` (with the csv write as its only
effect), not a text rendering. -/
theorem C1_parse_file_to_text_returns_none_witness :
    FileProcessor.parse_file_to_text ⟨5, 50000⟩
      (fun _ => Except.ok ⟨["payLoadData"], [["row1"]]⟩) (fun _ => Except.error "no excel")
      ⟨"log.csv", "x", "csv", 1⟩ false =
      .ok (none, [FPEffect.writeCsv
        ((if false then filter_iris_cms_logs else filter_heartbeat_and_boot_notification_messages)
          (limit_rows ⟨["payLoadData"], [["row1"]]⟩ (50000 : Nat)))]) :=
  C1_parse_file_to_text_returns_none ⟨5, 50000⟩
    (fun _ => Except.ok ⟨["payLoadData"], [["row1"]]⟩) (fun _ => Except.error "no excel")
    ⟨"log.csv", "x", "csv", 1⟩ false ⟨["payLoadData"], [["row1"]]⟩
    rfl (by decide) rfl

/-- C7.  On a successfully parsed input, `parse_file_to_text` processes (i.e.
filters and writes out) only the first `max_dataframe_rows` rows when the
parse has more than that many rows — the dataframe is truncated by `head` to
exactly `df.rows.take max_dataframe_rows` — and processes all rows unchanged
when the parse has at most `max_dataframe_rows` rows. -/
theorem C7_parse_file_to_text_truncates (self : FileProcessor)
    (parse_csv read_excel : String → Except String DataFrame)
    (lf : LogFile) (flag : Bool) (df : DataFrame)
    (hcsv : lf.file_type = "csv")
    (hsize : lf.content.utf8ByteSize ≤ self.max_file_size_mb * 1024 * 1024)
    (hread : parse_csv lf.content = .ok df) :
    (self.max_dataframe_rows < df.rows.length →
      self.parse_file_to_text parse_csv read_excel lf flag =
        .ok (none, [FPEffect.writeCsv
          ((if flag then filter_iris_cms_logs else filter_heartbeat_and_boot_notification_messages)
            ⟨df.columns, df.rows.take self.max_dataframe_rows⟩)])) ∧
    (df.rows.length ≤ self.max_dataframe_rows →
      self.parse_file_to_text parse_csv read_excel lf flag =
        .ok (none, [FPEffect.writeCsv
          ((if flag then filter_iris_cms_logs else filter_heartbeat_and_boot_notification_messages)
            df)])) := by
  have h := parse_file_to_text_ok_eq self parse_csv read_excel lf flag df hcsv hsize hread
  constructor
  · intro hgt
    have hl : limit_rows df self.max_dataframe_rows =
        ⟨df.columns, df.rows.take self.max_dataframe_rows⟩ := by
      unfold limit_rows
      rw [if_pos (show df.rows.length > self.max_dataframe_rows by omega)]
    rw [h, hl]
  · intro hle
    have hl : limit_rows df self.max_dataframe_rows = df := by
      unfold limit_rows
      rw [if_neg (show ¬df.rows.length > self.max_dataframe_rows by omega)]
    rw [h, hl]

/-- Witness for C7: a three-row parse against a two-row limit is processed as
its first two rows, and the same parse against a generous limit is processed
unchanged. -/
theorem C7_parse_file_to_text_truncates_witness :
    FileProcessor.parse_file_to_text ⟨5, 2⟩
      (fun _ => Except.ok ⟨["payLoadData"], [["a"], ["b"], ["c"]]⟩)
      (fun _ => Except.error "no excel") ⟨"log.csv", "x", "csv", 1⟩ false =
      .ok (none, [FPEffect.writeCsv
        ((if false then filter_iris_cms_logs else filter_heartbeat_and_boot_notification_messages)
          ⟨["payLoadData"], ([["a"], ["b"], ["c"]] : List (List String)).take 2⟩)]) :=
  (C7_parse_file_to_text_truncates ⟨5, 2⟩
      (fun _ => Except.ok ⟨["payLoadData"], [["a"], ["b"], ["c"]]⟩)
      (fun _ => Except.error "no excel") ⟨"log.csv", "x", "csv", 1⟩ false
      ⟨["payLoadData"], [["a"], ["b"], ["c"]]⟩ rfl (by decide) rfl).1 (by decide)

/-- C8.  Every failure inside `parse_file_to_text` surfaces as a
`FileProcessingError` and nothing else: any error result is the
`fileProcessingError` constructor, and the three failure classes — file over
the size limit, unsupported file type, and a reader (parsing) error — each
produce the corresponding wrapped message.  The model calls the reader at
most once, so a failing call performs no retry. -/
theorem C8_parse_file_to_text_error_taxonomy (self : FileProcessor)
    (parse_csv read_excel : String → Except String DataFrame)
    (lf : LogFile) (flag : Bool) :
    (∀ e, self.parse_file_to_text parse_csv read_excel lf flag = .error e →
      ∃ msg, e = PyExc.fileProcessingError msg) ∧
    (self.max_file_size_mb * 1024 * 1024 < lf.content.utf8ByteSize →
      self.parse_file_to_text parse_csv read_excel lf flag =
        .error (.fileProcessingError ("Error processing file: " ++
          ("File too large. Maximum size allowed: " ++ toString self.max_file_size_mb ++ "MB")))) ∧
    (lf.file_type ≠ "csv" → lf.file_type ≠ "xlsx" →
      lf.content.utf8ByteSize ≤ self.max_file_size_mb * 1024 * 1024 →
      self.parse_file_to_text parse_csv read_excel lf flag =
        .error (.fileProcessingError ("Error processing file: " ++
          ("Unsupported file type: " ++ lf.file_type)))) ∧
    (∀ msg, lf.file_type = "csv" →
      lf.content.utf8ByteSize ≤ self.max_file_size_mb * 1024 * 1024 →
      parse_csv lf.content = .error msg →
      self.parse_file_to_text parse_csv read_excel lf flag =
        .error (.fileProcessingError ("Error processing file: " ++ msg))) := by
  refine ⟨?_, ?_, ?_, ?_⟩
  · intro e h
    unfold FileProcessor.parse_file_to_text at h
    cases hb : parse_file_to_text_body self parse_csv read_excel lf flag with
    | ok r => rw [hb] at h; cases h
    | error e' =>
      rw [hb] at h
      injection h with h2
      exact ⟨_, h2.symm⟩
  · intro hgt
    have hv : validate_file_size lf.content self.max_file_size_mb =
        .error (.fileSizeError ("File too large. Maximum size allowed: " ++
          toString self.max_file_size_mb ++ "MB")) := by
      unfold validate_file_size
      rw [if_pos (by omega)]
    unfold FileProcessor.parse_file_to_text parse_file_to_text_body
    rw [hv]
    rfl
  · intro h1 h2 hsize
    have hv : validate_file_size lf.content self.max_file_size_mb = .ok true := by
      unfold validate_file_size
      rw [if_neg (by omega)]
    unfold FileProcessor.parse_file_to_text parse_file_to_text_body
    rw [hv, if_neg h1, if_neg h2]
    rfl
  · intro msg hcsv hsize hread
    have hv : validate_file_size lf.content self.max_file_size_mb = .ok true := by
      unfold validate_file_size
      rw [if_neg (by omega)]
    unfold FileProcessor.parse_file_to_text parse_file_to_text_body
    rw [hv, hcsv]
    simp [hread, throw, throwThe, MonadExceptOf.throw, Except.map]
    rfl

/-- Witness for C8: a concrete unsupported file type surfaces as a
`FileProcessingError` with the wrapped message. -/
theorem C8_parse_file_to_text_error_taxonomy_witness :
    FileProcessor.parse_file_to_text ⟨5, 50000⟩
      (fun _ => Except.ok ⟨[], []⟩) (fun _ => Except.error "no excel")
      ⟨"log.txt", "x", "txt", 1⟩ false =
      .error (.fileProcessingError ("Error processing file: " ++
        ("Unsupported file type: " ++ "txt"))) :=
  (C8_parse_file_to_text_error_taxonomy ⟨5, 50000⟩
      (fun _ => Except.ok ⟨[], []⟩) (fun _ => Except.error "no excel")
      ⟨"log.txt", "x", "txt", 1⟩ false).2.2.1 (by decide) (by decide) (by decide)


/-! ## C5 / C6: the rate limiter -/

/-- Unfolding of `check_rate_limit` through `checkData1`. -/
theorem check_rate_limit_eq (rl : RateLimiter) (t : ℚ) (sid : String) :
    check_rate_limit rl t sid =
      if (checkData1 rl t sid).count ≥ rl.max_requests_per_minute then
        (CheckResult.rateLimitError "Rate limit exceeded. Please wait a moment before trying again.",
          ⟨rl.max_requests_per_minute,
            fun s => if s = sid then some (checkData1 rl t sid) else rl.request_counts s⟩)
      else
        (CheckResult.allowed,
          ⟨rl.max_requests_per_minute,
            fun s => if s = sid then
                some ⟨(checkData1 rl t sid).count + 1, (checkData1 rl t sid).last_reset⟩
              else rl.request_counts s⟩) := by
  unfold check_rate_limit checkData1
  cases hld : rl.request_counts sid with
  | none =>
    have hno : ¬t - (⟨0, t⟩ : SessionData).last_reset > 60 := by simp
    simp only [hno, if_false, ite_false]
  | some d =>
    rfl

/-- Updating one session's entry with a bounded count preserves the
invariant. -/
theorem rlinv_update {maxR : Nat} {rl : RateLimiter} (h : RLInv maxR rl) (sid : String)
    (d1 : SessionData) (hle : d1.count ≤ maxR) :
    RLInv maxR ⟨rl.max_requests_per_minute,
      fun s => if s = sid then some d1 else rl.request_counts s⟩ := by
  refine ⟨h.1, ?_⟩
  intro sid2 d2 h2
  have h2' : (if sid2 = sid then some d1 else rl.request_counts sid2) = some d2 := h2
  by_cases hs : sid2 = sid
  · rw [if_pos hs] at h2'
    cases h2'
    exact hle
  · rw [if_neg hs] at h2'
    exact h.2 sid2 d2 h2'

/-- The effective entry's count is bounded in any state satisfying the
invariant. -/
theorem checkData1_count_le {maxR : Nat} {rl : RateLimiter} (h : RLInv maxR rl)
    (t : ℚ) (sid : String) : (checkData1 rl t sid).count ≤ maxR := by
  unfold checkData1
  cases hld : rl.request_counts sid with
  | none => exact Nat.zero_le maxR
  | some d =>
    show (if t - d.last_reset > 60 then (⟨0, t⟩ : SessionData) else d).count ≤ maxR
    by_cases hexp : t - d.last_reset > 60
    · rw [if_pos hexp]
      exact Nat.zero_le maxR
    · rw [if_neg hexp]
      exact h.2 sid d hld

/-- A `check_rate_limit` call preserves the invariant. -/
theorem check_post_inv {maxR : Nat} {rl : RateLimiter} (h : RLInv maxR rl)
    (t : ℚ) (sid : String) : RLInv maxR (check_rate_limit rl t sid).2 := by
  rw [check_rate_limit_eq]
  by_cases hm : (checkData1 rl t sid).count ≥ rl.max_requests_per_minute
  · rw [if_pos hm]
    exact rlinv_update h sid _ (checkData1_count_le h t sid)
  · rw [if_neg hm]
    refine rlinv_update h sid _ ?_
    show (checkData1 rl t sid).count + 1 ≤ maxR
    have h1 := h.1
    omega

/-- A `reset_session` call preserves the invariant. -/
theorem reset_post_inv {maxR : Nat} {rl : RateLimiter} (h : RLInv maxR rl)
    (t : ℚ) (sid : String) : RLInv maxR (reset_session rl t sid) := by
  unfold reset_session
  cases hld : rl.request_counts sid with
  | none => exact h
  | some d => exact rlinv_update h sid _ (Nat.zero_le maxR)

/-- Every call preserves the invariant. -/
theorem stepOp_inv {maxR : Nat} {rl : RateLimiter} (h : RLInv maxR rl) (op : RLOp) :
    RLInv maxR (stepOp rl op) := by
  cases op with
  | check t sid => exact check_post_inv h t sid
  | remaining t sid => exact h
  | reset t sid => exact reset_post_inv h t sid

/-- The invariant holds in every reachable state. -/
theorem runOps_inv (maxR : Nat) (ops : List RLOp) : RLInv maxR (runOps maxR ops) := by
  have hinit : RLInv maxR (RateLimiter.init maxR) := by
    refine ⟨rfl, ?_⟩
    intro sid d h
    cases h
  unfold runOps
  generalize RateLimiter.init maxR = rl0 at hinit ⊢
  induction ops generalizing rl0 with
  | nil => exact hinit
  | cons op ops ih => exact ih _ (stepOp_inv hinit op)

/-- The effective entry's count is exactly the claim's current-window count. -/
theorem checkData1_count_eq_window (rl : RateLimiter) (t : ℚ) (sid : String) :
    (checkData1 rl t sid).count = windowCountSpec rl t sid := by
  unfold checkData1 windowCountSpec
  cases hld : rl.request_counts sid with
  | none => rfl
  | some d =>
    show (if t - d.last_reset > 60 then (⟨0, t⟩ : SessionData) else d).count =
      if t - d.last_reset > 60 then 0 else d.count
    by_cases hexp : t - d.last_reset > 60
    · rw [if_pos hexp, if_pos hexp]
    · rw [if_neg hexp, if_neg hexp]

/-- A `check_rate_limit` call raises exactly when the count of the current
window has already reached the maximum, in any state. -/
theorem check_isError_iff (rl : RateLimiter) (t : ℚ) (sid : String) :
    (check_rate_limit rl t sid).1.isError = true ↔
      rl.max_requests_per_minute ≤ windowCountSpec rl t sid := by
  rw [check_rate_limit_eq]
  by_cases hm : (checkData1 rl t sid).count ≥ rl.max_requests_per_minute
  · rw [if_pos hm]
    simp only [CheckResult.isError]
    rw [checkData1_count_eq_window] at hm
    simpa using hm
  · rw [if_neg hm]
    simp only [CheckResult.isError]
    rw [checkData1_count_eq_window] at hm
    simpa using hm

/-- A raising call stores the effective entry and leaves the count value
unchanged (reachable states). -/
theorem check_raise_count_preserved {maxR : Nat} {rl : RateLimiter} (h : RLInv maxR rl)
    (t : ℚ) (sid : String)
    (herr : (check_rate_limit rl t sid).1.isError = true) :
    countOf (check_rate_limit rl t sid).2 sid = countOf rl sid := by
  rw [check_rate_limit_eq] at herr ⊢
  by_cases hm : (checkData1 rl t sid).count ≥ rl.max_requests_per_minute
  · rw [if_pos hm] at herr ⊢
    show (match (if sid = sid then some (checkData1 rl t sid) else rl.request_counts sid) with
      | some d => d.count
      | none => 0) = countOf rl sid
    rw [if_pos (show sid = sid from rfl)]
    show (checkData1 rl t sid).count = countOf rl sid
    unfold checkData1 countOf at *
    cases hld : rl.request_counts sid with
    | none => rfl
    | some d =>
      rw [hld] at hm
      show (if t - d.last_reset > 60 then (⟨0, t⟩ : SessionData) else d).count = d.count
      by_cases hexp : t - d.last_reset > 60
      · rw [if_pos hexp]
        have hm' : (0 : Nat) ≥ rl.max_requests_per_minute := by
          have : (if t - d.last_reset > 60 then (⟨0, t⟩ : SessionData) else d).count ≥
              rl.max_requests_per_minute := hm
          rw [if_pos hexp] at this
          exact this
        have hc : d.count = 0 := by
          have hb := h.2 sid d hld
          have h1 := h.1
          omega
        rw [hc]
      · rw [if_neg hexp]
  · rw [if_neg hm] at herr
    exact absurd herr (by simp [CheckResult.isError])

/-- C5.  Over every sequence of `check_rate_limit` / `get_remaining_requests`
/ `reset_session` calls against a fresh limiter: every stored per-session
count is at most `max_requests_per_minute`; a further `check_rate_limit`
raises `RateLimitError` exactly when the current window's count has already
reached `max_requests_per_minute`; and a raising call leaves the stored count
unchanged. -/
theorem C5_rate_limiter_invariant (maxR : Nat) (ops : List RLOp) (sid : String)
    (d : SessionData) (t : ℚ) (sid2 : String) :
    ((runOps maxR ops).request_counts sid = some d → d.count ≤ maxR) ∧
    ((check_rate_limit (runOps maxR ops) t sid2).1.isError = true ↔
      maxR ≤ windowCountSpec (runOps maxR ops) t sid2) ∧
    ((check_rate_limit (runOps maxR ops) t sid2).1.isError = true →
      countOf (check_rate_limit (runOps maxR ops) t sid2).2 sid2 =
        countOf (runOps maxR ops) sid2) := by
  have hinv := runOps_inv maxR ops
  refine ⟨fun hld => hinv.2 sid d hld, ?_, ?_⟩
  · rw [check_isError_iff, hinv.1]
  · exact check_raise_count_preserved hinv t sid2

/-- Witness for C5 on a concrete trace: after one allowed request the stored
count is 1 ≤ 10, and an immediate further check in the same window raises iff
10 ≤ 1 (i.e. it does not raise). -/
theorem C5_rate_limiter_invariant_witness :
    ((runOps 10 [RLOp.check 0 "default"]).request_counts "default" =
      some ⟨1, 0⟩ → (⟨1, (0 : ℚ)⟩ : SessionData).count ≤ 10) ∧
    ((check_rate_limit (runOps 10 [RLOp.check 0 "default"]) 1 "default").1.isError = true ↔
      10 ≤ windowCountSpec (runOps 10 [RLOp.check 0 "default"]) 1 "default") :=
  ⟨(C5_rate_limiter_invariant 10 [RLOp.check 0 "default"] "default" ⟨1, 0⟩ 1 "default").1,
   (C5_rate_limiter_invariant 10 [RLOp.check 0 "default"] "default" ⟨1, 0⟩ 1 "default").2.1⟩

/-- C6.  For a session whose `last_reset` lies more than 60 seconds in the
past (and a positive quota), the next `check_rate_limit` call zeroes the
counter and is allowed as the first request of the new window — afterwards the
stored entry is count 1 with `last_reset` stamped to the call time — and
`get_remaining_requests` reports the full quota for that session. -/
theorem C6_rate_limiter_window_reset (rl : RateLimiter) (t : ℚ) (sid : String)
    (d : SessionData)
    (hpos : 0 < rl.max_requests_per_minute)
    (hld : rl.request_counts sid = some d)
    (hexp : t - d.last_reset > 60) :
    (check_rate_limit rl t sid).1 = CheckResult.allowed ∧
    (check_rate_limit rl t sid).2.request_counts sid = some ⟨1, t⟩ ∧
    get_remaining_requests rl t sid = rl.max_requests_per_minute := by
  have hd1 : checkData1 rl t sid = ⟨0, t⟩ := by
    unfold checkData1
    rw [hld]
    show (if t - d.last_reset > 60 then (⟨0, t⟩ : SessionData) else d) = ⟨0, t⟩
    rw [if_pos hexp]
  rw [check_rate_limit_eq, hd1]
  have hm : ¬(⟨0, t⟩ : SessionData).count ≥ rl.max_requests_per_minute := by
    show ¬(0 ≥ rl.max_requests_per_minute)
    omega
  rw [if_neg hm]
  refine ⟨rfl, by simp, ?_⟩
  unfold get_remaining_requests
  rw [hld]
  show (if t - d.last_reset > 60 then rl.max_requests_per_minute
    else rl.max_requests_per_minute - d.count) = rl.max_requests_per_minute
  rw [if_pos hexp]

/-- Witness for C6: a session whose window expired 40 seconds ago is allowed
again, its entry becomes count 1 at the new time, and the remaining quota
reads full. -/
theorem C6_rate_limiter_window_reset_witness :
    (check_rate_limit ⟨10, fun s => if s = "default" then some ⟨7, 0⟩ else none⟩
        100 "default").1 = CheckResult.allowed ∧
    (check_rate_limit ⟨10, fun s => if s = "default" then some ⟨7, 0⟩ else none⟩
        100 "default").2.request_counts "default" = some ⟨1, 100⟩ ∧
    get_remaining_requests ⟨10, fun s => if s = "default" then some ⟨7, 0⟩ else none⟩
        100 "default" = 10 :=
  C6_rate_limiter_window_reset
    ⟨10, fun s => if s = "default" then some ⟨7, 0⟩ else none⟩ 100 "default" ⟨7, 0⟩
    (by norm_num) (by norm_num) (by norm_num)

/-! ## Substring lemmas -/

/-- Boolean prefix test as an append decomposition. -/
theorem isPrefixOf_true_iff {p s : List Char} :
    p.isPrefixOf s = true ↔ ∃ t, s = p ++ t := by
  induction p generalizing s with
  | nil => simp [List.isPrefixOf]
  | cons a as ih =>
    cases s with
    | nil => simp [List.isPrefixOf]
    | cons b bs =>
      simp only [List.isPrefixOf, Bool.and_eq_true, beq_iff_eq]
      constructor
      · rintro ⟨rfl, htail⟩
        obtain ⟨t, ht⟩ := ih.mp htail
        exact ⟨t, by rw [ht]; rfl⟩
      · rintro ⟨t, ht⟩
        injection ht with h1 h2
        exact ⟨h1.symm, ih.mpr ⟨t, h2⟩⟩

/-- The substring test as an append decomposition. -/
theorem listContainsSeq_true_iff {pat s : List Char} :
    listContainsSeq pat s = true ↔ ∃ l r, s = l ++ (pat ++ r) := by
  induction s with
  | nil =>
    simp only [listContainsSeq, List.isEmpty_iff]
    constructor
    · intro h
      exact ⟨[], [], by simp [h]⟩
    · rintro ⟨l, r, hl⟩
      have h0 := hl.symm
      rw [List.append_eq_nil] at h0
      have h1 := h0.2
      rw [List.append_eq_nil] at h1
      exact h1.1
  | cons c cs ih =>
    simp only [listContainsSeq, Bool.or_eq_true]
    constructor
    · intro h
      cases h with
      | inl hpre =>
        obtain ⟨t, ht⟩ := isPrefixOf_true_iff.mp hpre
        exact ⟨[], t, by simpa using ht⟩
      | inr hrec =>
        obtain ⟨l, r, hl⟩ := ih.mp hrec
        exact ⟨c :: l, r, by rw [hl]; rfl⟩
    · rintro ⟨l, r, hl⟩
      cases l with
      | nil =>
        exact Or.inl (isPrefixOf_true_iff.mpr ⟨r, by simpa using hl⟩)
      | cons x xs =>
        injection hl with h1 h2
        exact Or.inr (ih.mpr ⟨xs, r, h2⟩)

/-! ## C4: the transaction-id extraction guard -/

/-- Python's ASCII lowercase map never yields an uppercase letter, in
particular never `I`. -/
theorem pyLower_ne_I (c : Char) : pyLower c ≠ 'I' := by
  intro h
  unfold pyLower at h
  split at h
  · next hr =>
    have htn := congrArg Char.toNat h
    have hofn : (Char.ofNatAux (c.toNat + 32) (Or.inl (by omega))).toNat = c.toNat + 32 := rfl
    rw [hofn] at htn
    have : ('I' : Char).toNat = 73 := rfl
    omega
  · next hr =>
    apply hr
    rw [h]
    exact ⟨by decide, by decide⟩

/-- The guard `'transactionId' in payload.lower()` at file_processor.py line
166 is always false: a lowercased string cannot contain the capital `I` of
the literal. -/
theorem lower_guard_false (payload : String) :
    listContainsSeq (("transactionId").data) ((strLower payload).data) = false := by
  cases hcase : listContainsSeq (("transactionId").data) ((strLower payload).data) with
  | false => rfl
  | true =>
    exfalso
    obtain ⟨l, r, heq⟩ := (listContainsSeq_true_iff).mp hcase
    have hI : 'I' ∈ (strLower payload).data := by
      rw [heq]
      have hpat : 'I' ∈ ("transactionId").data := by decide
      exact List.mem_append.mpr (Or.inr (List.mem_append.mpr (Or.inl hpat)))
    have hmap : (strLower payload).data = payload.data.map pyLower := rfl
    rw [hmap] at hI
    obtain ⟨c, _, hc⟩ := List.mem_map.mp hI
    exact pyLower_ne_I c hc

/-- C4 fails on the code: `_extract_transaction_sessions` returns the empty
list for EVERY dataframe.  The guard `'transactionId' in payload.lower()`
in `_extract_transaction_ids` compares the mixed-case literal against the
lowercased payload and is therefore always false, so no transaction id is
ever extracted and no session is ever produced — contradicting the claim
(and the function's own purpose) of one session per extracted id. -/
theorem C4_extract_transaction_sessions_always_empty (df : DataFrame) :
    extract_transaction_sessions df = [] := by
  have hids : extract_transaction_ids df = [] := by
    unfold extract_transaction_ids
    rw [List.dedup_eq_nil, List.filterMap_eq_nil_iff]
    intro row hrow
    show (if listContainsSeq (("transactionId").data) ((strLower (payloadOf df row)).data) then
      extract_transaction_id_from_payload (payloadOf df row) else none) = none
    rw [lower_guard_false]
    rfl
  unfold extract_transaction_sessions
  rw [hids]
  simp

/-! ## C10: session / remaining-message partition -/

/-- C10.  Every row of the dataframe appears either in some extracted
session's message list or in the remaining-messages list, and it is in the
remaining list exactly when its payload matches no session's transaction-id
patterns: no row is dropped between the session analysis and the
other-messages section. -/
theorem C10_partition_sessions_remaining (df : DataFrame) (i : Nat) (row : List String)
    (hmem : (i, row) ∈ enumRows df) :
    ((∃ s ∈ extract_transaction_sessions df, (i, row) ∈ s.messages) ∨
      (i, row) ∈ get_remaining_messages df (extract_transaction_sessions df)) ∧
    ((i, row) ∈ get_remaining_messages df (extract_transaction_sessions df) ↔
      ∀ s ∈ extract_transaction_sessions df,
        payloadMatchesTx (payloadOf df row) s.transaction_id = false) := by
  have hrem : (i, row) ∈ get_remaining_messages df (extract_transaction_sessions df) ↔
      ∀ s ∈ extract_transaction_sessions df,
        payloadMatchesTx (payloadOf df row) s.transaction_id = false := by
    unfold get_remaining_messages
    rw [List.mem_mergeSort, List.mem_filter]
    simp only [Bool.not_eq_true']
    rw [List.any_eq_false]
    simp only [Bool.not_eq_true]
    constructor
    · exact fun h => h.2
    · exact fun h => ⟨hmem, h⟩
  refine ⟨?_, hrem⟩
  by_cases hany : (extract_transaction_sessions df).any
      (fun s => payloadMatchesTx (payloadOf df row) s.transaction_id) = true
  · left
    obtain ⟨s, hs, hmatch⟩ := List.any_eq_true.mp hany
    refine ⟨s, hs, ?_⟩
    have hsm : s.messages = get_messages_for_transaction df s.transaction_id ∧
        s.transaction_id = s.transaction_id := by
      unfold extract_transaction_sessions at hs
      rw [List.mem_filterMap] at hs
      obtain ⟨tx, htx, heq⟩ := hs
      have heq' : (if (get_messages_for_transaction df tx).isEmpty then none
          else some (⟨tx, get_messages_for_transaction df tx⟩ : TransactionSession)) = some s := heq
      by_cases he : (get_messages_for_transaction df tx).isEmpty
      · rw [if_pos he] at heq'
        cases heq'
      · rw [if_neg he] at heq'
        cases heq'
        exact ⟨rfl, rfl⟩
    rw [hsm.1]
    unfold get_messages_for_transaction
    rw [List.mem_mergeSort, List.mem_filter]
    exact ⟨hmem, hmatch⟩
  · right
    rw [hrem]
    simp only [Bool.not_eq_true] at hany
    intro s hs
    have := List.any_eq_false.mp hany s hs
    simpa using this

/-- Witness for C10 on a concrete one-row dataframe: the row is covered by
the partition (here: it lands in the remaining list, since no session
exists). -/
theorem C10_partition_sessions_remaining_witness :
    ((0, ["x"]) ∈ enumRows ⟨["payLoadData"], [["x"]]⟩) ∧
    (((∃ s ∈ extract_transaction_sessions ⟨["payLoadData"], [["x"]]⟩,
        (0, ["x"]) ∈ s.messages) ∨
      (0, ["x"]) ∈ get_remaining_messages ⟨["payLoadData"], [["x"]]⟩
        (extract_transaction_sessions ⟨["payLoadData"], [["x"]]⟩)) ∧
    ((0, ["x"]) ∈ get_remaining_messages ⟨["payLoadData"], [["x"]]⟩
        (extract_transaction_sessions ⟨["payLoadData"], [["x"]]⟩) ↔
      ∀ s ∈ extract_transaction_sessions ⟨["payLoadData"], [["x"]]⟩,
        payloadMatchesTx (payloadOf ⟨["payLoadData"], [["x"]]⟩ ["x"])
          s.transaction_id = false)) :=
  ⟨by decide,
   C10_partition_sessions_remaining ⟨["payLoadData"], [["x"]]⟩ 0 ["x"] (by decide)⟩

/-! ## Regex matcher lemmas

Scanning and greedy-consumption lemmas used to evaluate
`_extract_transaction_id_from_payload` on the canonical payloads. -/

/-- A character satisfying a predicate everywhere on `l` lets `takeWhile`
pass through an append. -/
theorem takeWhile_append_of_all {α : Type} (p : α → Bool) (l r : List α)
    (hl : ∀ c ∈ l, p c = true) :
    (l ++ r).takeWhile p = l ++ r.takeWhile p := by
  induction l with
  | nil => rfl
  | cons c cs ih =>
    rw [List.cons_append, List.takeWhile_cons, if_pos (hl c (by simp)), List.cons_append,
      ih (fun x hx => hl x (by simp [hx]))]

/-- `takeWhile` stops at a head that fails the predicate. -/
theorem takeWhile_cons_of_neg {α : Type} (p : α → Bool) (c : α) (cs : List α)
    (h : p c = false) : (c :: cs).takeWhile p = [] := by
  rw [List.takeWhile_cons, h]
  rfl

/-- `dropWhile` consumes a block that satisfies the predicate everywhere. -/
theorem dropWhile_append_of_all {α : Type} (p : α → Bool) (l r : List α)
    (hl : ∀ c ∈ l, p c = true) :
    (l ++ r).dropWhile p = r.dropWhile p := by
  induction l with
  | nil => rfl
  | cons c cs ih =>
    rw [List.cons_append, List.dropWhile_cons, if_pos (hl c (by simp))]
    exact ih (fun x hx => hl x (by simp [hx]))

/-- `dropWhile` stops at a head that fails the predicate. -/
theorem dropWhile_cons_of_neg {α : Type} (p : α → Bool) (c : α) (cs : List α)
    (h : p c = false) : (c :: cs).dropWhile p = c :: cs := by
  rw [List.dropWhile_cons, h]
  rfl

/-- One scanning step of `reSearch` when the pattern does not match here. -/
theorem reSearch_cons_none {p : TxPattern} {c : Char} {cs : List Char}
    (h : matchPatternAt p (c :: cs) = none) :
    reSearch p (c :: cs) = reSearch p cs := by
  show (match matchPatternAt p (c :: cs) with
    | some g => some g
    | none => reSearch p cs) = reSearch p cs
  rw [h]

/-- One scanning step of `reSearch` when the pattern matches here. -/
theorem reSearch_cons_some {p : TxPattern} {c : Char} {cs : List Char} {g : List Char}
    (h : matchPatternAt p (c :: cs) = some g) :
    reSearch p (c :: cs) = some g := by
  show (match matchPatternAt p (c :: cs) with
    | some g => some g
    | none => reSearch p cs) = some g
  rw [h]

/-- A pattern whose key starts with a quote cannot match at a non-quote
character. -/
theorem matchPatternAt_none_of_head_ne {p : TxPattern} {tk : List Char}
    (hk : p.key = '"' :: tk) {c : Char} (hc : c ≠ '"') (cs : List Char) :
    matchPatternAt p (c :: cs) = none := by
  unfold matchPatternAt
  rw [hk]
  cases hq : ('"' :: tk).isPrefixOf (c :: cs) with
  | false => simp
  | true =>
    exfalso
    obtain ⟨t, ht⟩ := isPrefixOf_true_iff.mp hq
    injection ht with h1 _
    exact hc h1

/-- A pattern whose key starts `"x…` cannot match at a quote followed by a
character other than `x`. -/
theorem matchPatternAt_none_quote_ne {p : TxPattern} {c2 : Char} {tk : List Char}
    (hk : p.key = '"' :: c2 :: tk) {x : Char} (hx : x ≠ c2) (cs : List Char) :
    matchPatternAt p ('"' :: x :: cs) = none := by
  unfold matchPatternAt
  rw [hk]
  cases hq : ('"' :: c2 :: tk).isPrefixOf ('"' :: x :: cs) with
  | false => simp
  | true =>
    exfalso
    obtain ⟨t, ht⟩ := isPrefixOf_true_iff.mp hq
    injection ht with _ h2
    injection h2 with h3 _
    exact hx h3

/-- Scanning skips over a block that contains no quote character. -/
theorem reSearch_skip {p : TxPattern} {tk : List Char} (hk : p.key = '"' :: tk)
    (l r : List Char) (hl : ∀ c ∈ l, c ≠ '"') :
    reSearch p (l ++ r) = reSearch p r := by
  induction l with
  | nil => rfl
  | cons c cs ih =>
    rw [List.cons_append,
      reSearch_cons_none (matchPatternAt_none_of_head_ne hk (hl c (by simp)) _)]
    exact ih (fun x hx => hl x (by simp [hx]))

/-- Scanning a quote-free string finds nothing. -/
theorem reSearch_none_of_no_quote {p : TxPattern} {tk : List Char}
    (hk : p.key = '"' :: tk) (l : List Char) (hl : ∀ c ∈ l, c ≠ '"') :
    reSearch p l = none := by
  have h := reSearch_skip hk l [] hl
  rw [List.append_nil] at h
  rw [h]
  rfl

/-- The key literal written as an explicit cons cell. -/
theorem keyOf_append (kb rest : List Char) :
    keyOf kb ++ rest = '"' :: (kb ++ ('"' :: ':' :: rest)) := by
  unfold keyOf
  simp [List.cons_append, List.append_assoc]

/-- A pattern matches at its own key position: the residue is the group
match after greedy `\s*`. -/
theorem matchPatternAt_key_eq (kb rest : List Char) (p : TxPattern)
    (hk : p.key = keyOf kb) :
    matchPatternAt p (keyOf kb ++ rest) =
      matchGroupAt p.quoted p.frac (rest.dropWhile isPySpace) := by
  unfold matchPatternAt
  rw [hk]
  rw [if_pos (isPrefixOf_true_iff.mpr ⟨rest, rfl⟩)]
  rw [List.drop_left]

/-- A pattern with a foreign key fails at another key's position whenever
the concrete prefix test fails. -/
theorem matchPatternAt_wrongkey_none {p : TxPattern} {kA : List Char}
    (hk : p.key = kA) (kbB rest : List Char)
    (hpre : kA.isPrefixOf (keyOf kbB ++ rest) = false) :
    matchPatternAt p (keyOf kbB ++ rest) = none := by
  unfold matchPatternAt
  rw [hk, hpre]
  simp

/-- Greedy digit reading on a digit block followed by a non-digit. -/
theorem readDigits_eq (ds : List Char) (c : Char) (r : List Char)
    (hne : ds ≠ []) (hd : ∀ x ∈ ds, x.isDigit = true) (hc : c.isDigit = false) :
    readDigits (ds ++ c :: r) = some (ds, c :: r) := by
  unfold readDigits
  rw [takeWhile_append_of_all _ _ _ hd, takeWhile_cons_of_neg _ _ _ hc, List.append_nil,
    dropWhile_append_of_all _ _ _ hd, dropWhile_cons_of_neg _ _ _ hc]
  rw [if_neg (by simp [List.isEmpty_iff, hne])]

/-- Digit reading fails on a non-digit head. -/
theorem readDigits_none_of_head (c : Char) (r : List Char) (hc : c.isDigit = false) :
    readDigits (c :: r) = none := by
  unfold readDigits
  rw [takeWhile_cons_of_neg _ _ _ hc]
  rfl

/-- `readNumber` without a fraction is digit reading. -/
theorem readNumber_false_eq {s : List Char} {ds r' : List Char}
    (h : readDigits s = some (ds, r')) : readNumber false s = some (ds, r') := by
  unfold readNumber
  rw [h]
  rfl

/-- `readNumber` with a fraction: digits, dot, digits. -/
theorem readNumber_true_eq {s ds rest fs r' : List Char}
    (h1 : readDigits s = some (ds, '.' :: rest))
    (h2 : readDigits rest = some (fs, r')) :
    readNumber true s = some (ds ++ '.' :: fs, r') := by
  unfold readNumber
  rw [h1]
  show (match readDigits rest with
    | none => none
    | some (d2, s3) => some (ds ++ '.' :: d2, s3)) = some (ds ++ '.' :: fs, r')
  rw [h2]

/-- `readNumber` fails when digit reading fails. -/
theorem readNumber_none_of_digits {s : List Char} (f : Bool)
    (h : readDigits s = none) : readNumber f s = none := by
  unfold readNumber
  rw [h]

/-- `readNumber` with a demanded fraction fails when no dot follows the
digits. -/
theorem readNumber_true_dotfail {s ds r' : List Char} {c : Char}
    (h : readDigits s = some (ds, c :: r')) (hc : c ≠ '.') :
    readNumber true s = none := by
  unfold readNumber
  rw [h]
  show (match expectChar '.' (c :: r') with
    | none => none
    | some s2 =>
      match readDigits s2 with
      | none => none
      | some (d2, s3) => some (ds ++ '.' :: d2, s3)) = none
  have he : expectChar '.' (c :: r') = none := by
    show (if c = '.' then some r' else none) = none
    rw [if_neg hc]
  rw [he]

/-- An unquoted group is the number match. -/
theorem matchGroupAt_false_some {f : Bool} {s g r' : List Char}
    (h : readNumber f s = some (g, r')) : matchGroupAt false f s = some g := by
  unfold matchGroupAt
  show (match readNumber f s with
    | none => none
    | some (g2, s2) => some g2) = some g
  rw [h]

/-- An unquoted group fails when the number match fails. -/
theorem matchGroupAt_false_none {f : Bool} {s : List Char}
    (h : readNumber f s = none) : matchGroupAt false f s = none := by
  unfold matchGroupAt
  show (match readNumber f s with
    | none => none
    | some (g2, s2) => some g2) = none
  rw [h]

/-- A quoted group fails on a non-quote head. -/
theorem matchGroupAt_quoted_headfail (f : Bool) (c : Char) (r : List Char)
    (hc : c ≠ '"') : matchGroupAt true f (c :: r) = none := by
  unfold matchGroupAt
  show (match expectChar '"' (c :: r) with
    | none => none
    | some s1 =>
      match readNumber f s1 with
      | none => none
      | some (g2, s2) =>
        match expectChar '"' s2 with
        | none => none
        | some s3 => some g2) = none
  have he : expectChar '"' (c :: r) = none := by
    show (if c = '"' then some r else none) = none
    rw [if_neg hc]
  rw [he]

/-- A quoted group whose number match ends right before the closing quote. -/
theorem matchGroupAt_true_some {f : Bool} {s1 g s2 : List Char}
    (h : readNumber f s1 = some (g, '"' :: s2)) :
    matchGroupAt true f ('"' :: s1) = some g := by
  unfold matchGroupAt
  show (match readNumber f s1 with
    | none => none
    | some (g2, s3) =>
      match expectChar '"' s3 with
      | none => none
      | some s4 => some g2) = some g
  rw [h]
  rfl

/-- A quoted group fails when the number match ends before a character other
than the closing quote. -/
theorem matchGroupAt_true_closefail {f : Bool} {s1 g s2 : List Char} {c : Char}
    (h : readNumber f s1 = some (g, c :: s2)) (hc : c ≠ '"') :
    matchGroupAt true f ('"' :: s1) = none := by
  unfold matchGroupAt
  show (match readNumber f s1 with
    | none => none
    | some (g2, s3) =>
      match expectChar '"' s3 with
      | none => none
      | some s4 => some g2) = none
  rw [h]
  show (match expectChar '"' (c :: s2) with
    | none => none
    | some s4 => some g) = none
  have he : expectChar '"' (c :: s2) = none := by
    show (if c = '"' then some s2 else none) = none
    rw [if_neg hc]
  rw [he]

/-- A quoted group fails when the number match inside the quotes fails. -/
theorem matchGroupAt_true_numfail {f : Bool} {s1 : List Char}
    (h : readNumber f s1 = none) : matchGroupAt true f ('"' :: s1) = none := by
  unfold matchGroupAt
  show (match readNumber f s1 with
    | none => none
    | some (g2, s3) =>
      match expectChar '"' s3 with
      | none => none
      | some s4 => some g2) = none
  rw [h]

/-- A whitespace character is not a quote. -/
theorem ne_quote_of_isPySpace {c : Char} (h : isPySpace c = true) : c ≠ '"' := by
  intro heq
  subst heq
  exact absurd h (by decide)

/-- A digit is not a quote. -/
theorem ne_quote_of_isDigit {c : Char} (h : c.isDigit = true) : c ≠ '"' := by
  intro heq
  subst heq
  exact absurd h (by decide)

/-- A digit differs from the second key character `t`/`T`. -/
theorem ne_tT_of_isDigit {d c2 : Char} (hd : d.isDigit = true)
    (hc2 : c2 = 't' ∨ c2 = 'T') : d ≠ c2 := by
  intro heq
  cases hc2 with
  | inl h => subst h; subst heq; exact absurd hd (by decide)
  | inr h => subst h; subst heq; exact absurd hd (by decide)

/-- Scanning a canonical payload finds nothing when the pattern fails at the
key position: the scan walks through the key body, the closing quote and
colon, the whitespace and the value without ever matching. -/
theorem reSearch_mkPayload_none (p : TxPattern) (c2 : Char) (tk kb ws val : List Char)
    (hk : p.key = '"' :: c2 :: tk)
    (hc2 : c2 = 't' ∨ c2 = 'T')
    (hkb : ∀ c ∈ kb, c ≠ '"')
    (hws : ∀ c ∈ ws, isPySpace c = true)
    (hval : (∀ c ∈ val, c ≠ '"') ∨
      (∃ d bs, val = '"' :: ((d :: bs) ++ ['"']) ∧ d.isDigit = true ∧
        (∀ c ∈ d :: bs, c ≠ '"')))
    (hfail : matchPatternAt p (keyOf kb ++ (ws ++ (val ++ [rbrace]))) = none) :
    reSearch p (mkPayload kb ws val) = none := by
  have hcolon : (':' : Char) ≠ c2 := by
    cases hc2 with
    | inl h => subst h; decide
    | inr h => subst h; decide
  have hrb : rbrace ≠ c2 := by
    cases hc2 with
    | inl h => subst h; decide
    | inr h => subst h; decide
  have e0 : mkPayload kb ws val = lbrace :: (keyOf kb ++ (ws ++ (val ++ [rbrace]))) := rfl
  rw [e0, reSearch_cons_none (matchPatternAt_none_of_head_ne hk (by decide) _)]
  rw [keyOf_append]
  rw [reSearch_cons_none (by rw [← keyOf_append]; exact hfail)]
  rw [reSearch_skip hk kb _ hkb]
  rw [reSearch_cons_none (matchPatternAt_none_quote_ne hk hcolon _)]
  rw [reSearch_cons_none (matchPatternAt_none_of_head_ne hk (by decide) _)]
  rw [reSearch_skip hk ws _ (fun c hc => ne_quote_of_isPySpace (hws c hc))]
  cases hval with
  | inl hnq =>
    apply reSearch_none_of_no_quote hk
    intro c hc
    cases List.mem_append.mp hc with
    | inl h => exact hnq c h
    | inr h =>
      have : c = rbrace := by simpa using h
      subst this
      decide
  | inr hq =>
    obtain ⟨d, bs, hveq, hdig, hbq⟩ := hq
    rw [hveq]
    have e1 : ('"' :: ((d :: bs) ++ ['"'])) ++ [rbrace] =
        '"' :: d :: (bs ++ ('"' :: [rbrace])) := by
      simp [List.cons_append, List.append_assoc]
    rw [e1]
    rw [reSearch_cons_none (matchPatternAt_none_quote_ne hk (ne_tT_of_isDigit hdig hc2) _)]
    have e2 : d :: (bs ++ ('"' :: [rbrace])) = (d :: bs) ++ ('"' :: [rbrace]) := rfl
    rw [e2, reSearch_skip hk (d :: bs) _ hbq]
    rw [reSearch_cons_none (matchPatternAt_none_quote_ne hk hrb _)]
    rw [reSearch_cons_none (matchPatternAt_none_of_head_ne hk (by decide) _)]
    rfl

/-- Scanning a canonical payload succeeds at the key position when the
pattern's key is the payload's key and the group matches the value. -/
theorem reSearch_mkPayload_some (p : TxPattern) (kb ws val g : List Char)
    (hk : p.key = keyOf kb)
    (hws : ∀ c ∈ ws, isPySpace c = true)
    (hvhead : ∃ c r', val = c :: r' ∧ isPySpace c = false)
    (hgroup : matchGroupAt p.quoted p.frac (val ++ [rbrace]) = some g) :
    reSearch p (mkPayload kb ws val) = some g := by
  have hk' : p.key = '"' :: (kb ++ ['"', ':']) := by
    rw [hk]
    rfl
  have e0 : mkPayload kb ws val = lbrace :: (keyOf kb ++ (ws ++ (val ++ [rbrace]))) := rfl
  rw [e0, reSearch_cons_none (matchPatternAt_none_of_head_ne hk' (by decide) _)]
  have hmat : matchPatternAt p (keyOf kb ++ (ws ++ (val ++ [rbrace]))) = some g := by
    rw [matchPatternAt_key_eq kb _ p hk]
    rw [dropWhile_append_of_all _ _ _ hws]
    obtain ⟨c, r', hveq, hc⟩ := hvhead
    rw [hveq, List.cons_append, dropWhile_cons_of_neg _ _ _ hc, ← List.cons_append, ← hveq]
    exact hgroup
  rw [keyOf_append] at hmat ⊢
  rw [reSearch_cons_some hmat]

/-- Stepping over a pattern whose search fails. -/
theorem searchPatternsList_cons_none {p : TxPattern} {ps : List TxPattern}
    {s : List Char} (h : reSearch p s = none) :
    searchPatternsList (p :: ps) s = searchPatternsList ps s := by
  show (match reSearch p s with
    | some g => some (intFloatTrunc g)
    | none => searchPatternsList ps s) = searchPatternsList ps s
  rw [h]

/-- Stopping at the first pattern whose search succeeds. -/
theorem searchPatternsList_cons_some {p : TxPattern} {ps : List TxPattern}
    {s g : List Char} (h : reSearch p s = some g) :
    searchPatternsList (p :: ps) s = some (intFloatTrunc g) := by
  show (match reSearch p s with
    | some g => some (intFloatTrunc g)
    | none => searchPatternsList ps s) = some (intFloatTrunc g)
  rw [h]

/-- `takeWhile` of an everywhere-true predicate is the identity. -/
theorem takeWhile_all {α : Type} (p : α → Bool) (l : List α)
    (h : ∀ x ∈ l, p x = true) : l.takeWhile p = l := by
  induction l with
  | nil => rfl
  | cons c cs ih =>
    rw [List.takeWhile_cons, if_pos (h c (by simp)), ih (fun x hx => h x (by simp [hx]))]

/-- `int(float(...))` of a pure digit group is the digits' value. -/
theorem intFloatTrunc_digits (ds : List Char) (hd : ∀ x ∈ ds, x.isDigit = true) :
    intFloatTrunc ds = (digitsToNat ds : Int) := by
  unfold intFloatTrunc
  rw [takeWhile_all _ _ hd]

/-- `int(float(...))` of a fractional group truncates at the dot. -/
theorem intFloatTrunc_frac (ds fs : List Char) (hd : ∀ x ∈ ds, x.isDigit = true) :
    intFloatTrunc (ds ++ '.' :: fs) = (digitsToNat ds : Int) := by
  unfold intFloatTrunc
  rw [takeWhile_append_of_all _ _ _ hd, takeWhile_cons_of_neg _ _ _ (by decide),
    List.append_nil]

/-- The pattern list written as explicit cons cells. -/
theorem txPatterns_eq : txPatterns =
    ⟨keyOf kbCamel, false, false⟩ :: ⟨keyOf kbCamel, true, false⟩ ::
    ⟨keyOf kbCamel, false, true⟩ :: ⟨keyOf kbCamel, true, true⟩ ::
    ⟨keyOf kbLower, false, false⟩ :: ⟨keyOf kbLower, true, false⟩ ::
    ⟨keyOf kbPascal, false, false⟩ :: ⟨keyOf kbPascal, true, false⟩ :: [] := rfl

/-- The camel-case key literal never begins at any position of a payload
built around the all-lowercase key (it differs within the key). -/
theorem pre_camel_lower : ∀ rest, (keyOf kbCamel).isPrefixOf (keyOf kbLower ++ rest) = false :=
  fun _ => rfl

/-- Camel key against the Pascal-case key position. -/
theorem pre_camel_pascal : ∀ rest, (keyOf kbCamel).isPrefixOf (keyOf kbPascal ++ rest) = false :=
  fun _ => rfl

/-- Lowercase key against the camel key position. -/
theorem pre_lower_camel : ∀ rest, (keyOf kbLower).isPrefixOf (keyOf kbCamel ++ rest) = false :=
  fun _ => rfl

/-- Lowercase key against the Pascal key position. -/
theorem pre_lower_pascal : ∀ rest, (keyOf kbLower).isPrefixOf (keyOf kbPascal ++ rest) = false :=
  fun _ => rfl

/-- Pascal key against the camel key position. -/
theorem pre_pascal_camel : ∀ rest, (keyOf kbPascal).isPrefixOf (keyOf kbCamel ++ rest) = false :=
  fun _ => rfl

/-- Pascal key against the lowercase key position. -/
theorem pre_pascal_lower : ∀ rest, (keyOf kbPascal).isPrefixOf (keyOf kbLower ++ rest) = false :=
  fun _ => rfl

/-- A digit is not regex whitespace. -/
theorem not_space_of_digit {c : Char} (h : c.isDigit = true) : isPySpace c = false := by
  cases hsp : isPySpace c with
  | false => rfl
  | true =>
    exfalso
    simp only [isPySpace, Bool.or_eq_true, decide_eq_true_eq] at hsp
    rcases hsp with ((((h1 | h1) | h1) | h1) | h1) | h1 <;> subst h1 <;> exact absurd h (by decide)

/-- A pattern with a foreign key finds nothing in a canonical payload. -/
theorem reSearch_wrongkey (p : TxPattern) (c2 : Char) (tk kbB ws val : List Char)
    (hk : p.key = '"' :: c2 :: tk) (hc2 : c2 = 't' ∨ c2 = 'T')
    (hpre : ∀ rest, p.key.isPrefixOf (keyOf kbB ++ rest) = false)
    (hkb : ∀ c ∈ kbB, c ≠ '"')
    (hws : ∀ c ∈ ws, isPySpace c = true)
    (hval : (∀ c ∈ val, c ≠ '"') ∨
      (∃ d bs, val = '"' :: ((d :: bs) ++ ['"']) ∧ d.isDigit = true ∧
        (∀ c ∈ d :: bs, c ≠ '"'))) :
    reSearch p (mkPayload kbB ws val) = none :=
  reSearch_mkPayload_none p c2 tk kbB ws val hk hc2 hkb hws hval
    (matchPatternAt_wrongkey_none rfl kbB _ (hpre _))

/-- A pattern with the right key but a group that does not match the value
finds nothing in a canonical payload. -/
theorem reSearch_samekey_groupfail (p : TxPattern) (c2 : Char) (tk kb ws val : List Char)
    (hk : p.key = '"' :: c2 :: tk) (hkk : p.key = keyOf kb) (hc2 : c2 = 't' ∨ c2 = 'T')
    (hkb : ∀ c ∈ kb, c ≠ '"')
    (hws : ∀ c ∈ ws, isPySpace c = true)
    (hval : (∀ c ∈ val, c ≠ '"') ∨
      (∃ d bs, val = '"' :: ((d :: bs) ++ ['"']) ∧ d.isDigit = true ∧
        (∀ c ∈ d :: bs, c ≠ '"')))
    (hvhead : ∃ c r', val = c :: r' ∧ isPySpace c = false)
    (hgroup : matchGroupAt p.quoted p.frac (val ++ [rbrace]) = none) :
    reSearch p (mkPayload kb ws val) = none := by
  apply reSearch_mkPayload_none p c2 tk kb ws val hk hc2 hkb hws hval
  rw [matchPatternAt_key_eq kb _ p hkk]
  rw [dropWhile_append_of_all _ _ _ hws]
  obtain ⟨c, r', hveq, hc⟩ := hvhead
  rw [hveq, List.cons_append, dropWhile_cons_of_neg _ _ _ hc, ← List.cons_append, ← hveq]
  exact hgroup

/-- The quoted integer value with the closing brace, as a cons cell. -/
theorem vIntQ_append_rbrace (ds : List Char) :
    vIntQ ds ++ [rbrace] = '"' :: (ds ++ ('"' :: [rbrace])) := by
  simp [vIntQ, List.cons_append, List.append_assoc]

/-- The fractional value with the closing brace, as nested appends. -/
theorem vFrac_append_rbrace (ds fs : List Char) :
    vFrac ds fs ++ [rbrace] = ds ++ ('.' :: (fs ++ rbrace :: [])) := by
  simp [vFrac, List.cons_append, List.append_assoc]

/-- The quoted fractional value with the closing brace, as a cons cell. -/
theorem vFracQ_append_rbrace (ds fs : List Char) :
    vFracQ ds fs ++ [rbrace] = '"' :: (ds ++ ('.' :: (fs ++ ('"' :: [rbrace])))) := by
  simp [vFracQ, List.cons_append, List.append_assoc]

/-- Extraction on `{"transactionId":<ws><ds>}`: pattern 1 fires. -/
theorem extract_camel_int (ws ds : List Char) (hdne : ds ≠ [])
    (hd : ∀ x ∈ ds, x.isDigit = true) (hws : ∀ c ∈ ws, isPySpace c = true) :
    extract_transaction_id_from_payload (String.mk (mkPayload kbCamel ws ds)) =
      some (digitsToNat ds : Int) := by
  obtain ⟨d, bs, rfl⟩ := List.exists_cons_of_ne_nil hdne
  have hvhead : ∃ c r', (d :: bs) = c :: r' ∧ isPySpace c = false :=
    ⟨d, bs, rfl, not_space_of_digit (hd d (by simp))⟩
  have hg : matchGroupAt false false ((d :: bs) ++ [rbrace]) = some (d :: bs) :=
    matchGroupAt_false_some (readNumber_false_eq (readDigits_eq (d :: bs) rbrace [] hdne hd (by decide)))
  have h1 : reSearch ⟨keyOf kbCamel, false, false⟩ (mkPayload kbCamel ws (d :: bs)) =
      some (d :: bs) :=
    reSearch_mkPayload_some _ kbCamel ws _ _ rfl hws hvhead hg
  show searchPatternsList txPatterns (mkPayload kbCamel ws (d :: bs)) = _
  rw [txPatterns_eq, searchPatternsList_cons_some h1, intFloatTrunc_digits _ hd]

/-- Extraction on `{"transactionId":<ws>"<ds>"}`: pattern 1 fails, pattern 2
fires. -/
theorem extract_camel_intQ (ws ds : List Char) (hdne : ds ≠ [])
    (hd : ∀ x ∈ ds, x.isDigit = true) (hws : ∀ c ∈ ws, isPySpace c = true) :
    extract_transaction_id_from_payload (String.mk (mkPayload kbCamel ws (vIntQ ds))) =
      some (digitsToNat ds : Int) := by
  obtain ⟨d, bs, rfl⟩ := List.exists_cons_of_ne_nil hdne
  have hval : (∀ c ∈ vIntQ (d :: bs), c ≠ '"') ∨
      (∃ d' bs', vIntQ (d :: bs) = '"' :: ((d' :: bs') ++ ['"']) ∧ d'.isDigit = true ∧
        (∀ c ∈ d' :: bs', c ≠ '"')) :=
    Or.inr ⟨d, bs, rfl, hd d (by simp), fun c hc => ne_quote_of_isDigit (hd c hc)⟩
  have hvhead : ∃ c r', vIntQ (d :: bs) = c :: r' ∧ isPySpace c = false :=
    ⟨'"', (d :: bs) ++ ['"'], rfl, by decide⟩
  have hg1 : matchGroupAt false false (vIntQ (d :: bs) ++ [rbrace]) = none := by
    rw [vIntQ_append_rbrace]
    exact matchGroupAt_false_none (readNumber_none_of_digits _
      (readDigits_none_of_head _ _ (by decide)))
  have hg2 : matchGroupAt true false (vIntQ (d :: bs) ++ [rbrace]) = some (d :: bs) := by
    rw [vIntQ_append_rbrace]
    exact matchGroupAt_true_some (readNumber_false_eq
      (readDigits_eq (d :: bs) '"' [rbrace] hdne hd (by decide)))
  have h1 : reSearch ⟨keyOf kbCamel, false, false⟩
      (mkPayload kbCamel ws (vIntQ (d :: bs))) = none :=
    reSearch_samekey_groupfail _ 't' (("ransactionId").data ++ ['"', ':']) kbCamel ws _
      rfl rfl (Or.inl rfl) (by decide) hws hval hvhead hg1
  have h2 : reSearch ⟨keyOf kbCamel, true, false⟩
      (mkPayload kbCamel ws (vIntQ (d :: bs))) = some (d :: bs) :=
    reSearch_mkPayload_some _ kbCamel ws _ _ rfl hws hvhead hg2
  show searchPatternsList txPatterns (mkPayload kbCamel ws (vIntQ (d :: bs))) = _
  rw [txPatterns_eq, searchPatternsList_cons_none h1, searchPatternsList_cons_some h2,
    intFloatTrunc_digits _ hd]

/-- Extraction on `{"transactionId":<ws><ds>.<fs>}`: pattern 1 captures the
integer part (truncation). -/
theorem extract_camel_frac (ws ds fs : List Char) (hdne : ds ≠ [])
    (hd : ∀ x ∈ ds, x.isDigit = true)
    (hfne : fs ≠ []) (hf : ∀ x ∈ fs, x.isDigit = true)
    (hws : ∀ c ∈ ws, isPySpace c = true) :
    extract_transaction_id_from_payload (String.mk (mkPayload kbCamel ws (vFrac ds fs))) =
      some (digitsToNat ds : Int) := by
  obtain ⟨d, bs, rfl⟩ := List.exists_cons_of_ne_nil hdne
  have hvhead : ∃ c r', vFrac (d :: bs) fs = c :: r' ∧ isPySpace c = false :=
    ⟨d, bs ++ '.' :: fs, rfl, not_space_of_digit (hd d (by simp))⟩
  have hg : matchGroupAt false false (vFrac (d :: bs) fs ++ [rbrace]) = some (d :: bs) := by
    rw [vFrac_append_rbrace]
    exact matchGroupAt_false_some (readNumber_false_eq
      (readDigits_eq (d :: bs) '.' (fs ++ rbrace :: []) hdne hd (by decide)))
  have h1 : reSearch ⟨keyOf kbCamel, false, false⟩
      (mkPayload kbCamel ws (vFrac (d :: bs) fs)) = some (d :: bs) :=
    reSearch_mkPayload_some _ kbCamel ws _ _ rfl hws hvhead hg
  show searchPatternsList txPatterns (mkPayload kbCamel ws (vFrac (d :: bs) fs)) = _
  rw [txPatterns_eq, searchPatternsList_cons_some h1, intFloatTrunc_digits _ hd]

/-- Extraction on `{"transactionId":<ws>"<ds>.<fs>"}`: patterns 1-3 fail,
pattern 4 captures the full fraction, truncated at the dot. -/
theorem extract_camel_fracQ (ws ds fs : List Char) (hdne : ds ≠ [])
    (hd : ∀ x ∈ ds, x.isDigit = true)
    (hfne : fs ≠ []) (hf : ∀ x ∈ fs, x.isDigit = true)
    (hws : ∀ c ∈ ws, isPySpace c = true) :
    extract_transaction_id_from_payload (String.mk (mkPayload kbCamel ws (vFracQ ds fs))) =
      some (digitsToNat ds : Int) := by
  obtain ⟨d, bs, rfl⟩ := List.exists_cons_of_ne_nil hdne
  have hshape : vFracQ (d :: bs) fs = '"' :: ((d :: (bs ++ '.' :: fs)) ++ ['"']) := by
    simp [vFracQ, List.cons_append, List.append_assoc]
  have hbody : ∀ c ∈ d :: (bs ++ '.' :: fs), c ≠ '"' := by
    intro c hc
    rcases List.mem_cons.mp hc with rfl | hc
    · exact ne_quote_of_isDigit (hd _ (by simp))
    · rcases List.mem_append.mp hc with hc | hc
      · exact ne_quote_of_isDigit (hd _ (by simp [hc]))
      · rcases List.mem_cons.mp hc with rfl | hc
        · decide
        · exact ne_quote_of_isDigit (hf _ hc)
  have hval : (∀ c ∈ vFracQ (d :: bs) fs, c ≠ '"') ∨
      (∃ d' bs', vFracQ (d :: bs) fs = '"' :: ((d' :: bs') ++ ['"']) ∧ d'.isDigit = true ∧
        (∀ c ∈ d' :: bs', c ≠ '"')) :=
    Or.inr ⟨d, bs ++ '.' :: fs, hshape, hd d (by simp), hbody⟩
  have hvhead : ∃ c r', vFracQ (d :: bs) fs = c :: r' ∧ isPySpace c = false :=
    ⟨'"', (d :: bs) ++ ('.' :: (fs ++ ['"'])),
      by simp [vFracQ, List.cons_append, List.append_assoc], by decide⟩
  have hg1 : matchGroupAt false false (vFracQ (d :: bs) fs ++ [rbrace]) = none := by
    rw [vFracQ_append_rbrace]
    exact matchGroupAt_false_none (readNumber_none_of_digits _
      (readDigits_none_of_head _ _ (by decide)))
  have hg2 : matchGroupAt true false (vFracQ (d :: bs) fs ++ [rbrace]) = none := by
    rw [vFracQ_append_rbrace]
    exact matchGroupAt_true_closefail (readNumber_false_eq
      (readDigits_eq (d :: bs) '.' (fs ++ ('"' :: [rbrace])) hdne hd (by decide))) (by decide)
  have hg3 : matchGroupAt false true (vFracQ (d :: bs) fs ++ [rbrace]) = none := by
    rw [vFracQ_append_rbrace]
    exact matchGroupAt_false_none (readNumber_none_of_digits _
      (readDigits_none_of_head _ _ (by decide)))
  have hg4 : matchGroupAt true true (vFracQ (d :: bs) fs ++ [rbrace]) =
      some ((d :: bs) ++ '.' :: fs) := by
    rw [vFracQ_append_rbrace]
    exact matchGroupAt_true_some (readNumber_true_eq
      (readDigits_eq (d :: bs) '.' (fs ++ ('"' :: [rbrace])) hdne hd (by decide))
      (readDigits_eq fs '"' [rbrace] hfne hf (by decide)))
  have h1 : reSearch ⟨keyOf kbCamel, false, false⟩
      (mkPayload kbCamel ws (vFracQ (d :: bs) fs)) = none :=
    reSearch_samekey_groupfail _ 't' (("ransactionId").data ++ ['"', ':']) kbCamel ws _
      rfl rfl (Or.inl rfl) (by decide) hws hval hvhead hg1
  have h2 : reSearch ⟨keyOf kbCamel, true, false⟩
      (mkPayload kbCamel ws (vFracQ (d :: bs) fs)) = none :=
    reSearch_samekey_groupfail _ 't' (("ransactionId").data ++ ['"', ':']) kbCamel ws _
      rfl rfl (Or.inl rfl) (by decide) hws hval hvhead hg2
  have h3 : reSearch ⟨keyOf kbCamel, false, true⟩
      (mkPayload kbCamel ws (vFracQ (d :: bs) fs)) = none :=
    reSearch_samekey_groupfail _ 't' (("ransactionId").data ++ ['"', ':']) kbCamel ws _
      rfl rfl (Or.inl rfl) (by decide) hws hval hvhead hg3
  have h4 : reSearch ⟨keyOf kbCamel, true, true⟩
      (mkPayload kbCamel ws (vFracQ (d :: bs) fs)) = some ((d :: bs) ++ '.' :: fs) :=
    reSearch_mkPayload_some _ kbCamel ws _ _ rfl hws hvhead hg4
  show searchPatternsList txPatterns (mkPayload kbCamel ws (vFracQ (d :: bs) fs)) = _
  rw [txPatterns_eq, searchPatternsList_cons_none h1, searchPatternsList_cons_none h2,
    searchPatternsList_cons_none h3, searchPatternsList_cons_some h4,
    intFloatTrunc_frac _ _ hd]

/-- Extraction on `{"transactionid":<ws><ds>}`: patterns 1-4 miss the key,
pattern 5 fires. -/
theorem extract_lower_int (ws ds : List Char) (hdne : ds ≠ [])
    (hd : ∀ x ∈ ds, x.isDigit = true) (hws : ∀ c ∈ ws, isPySpace c = true) :
    extract_transaction_id_from_payload (String.mk (mkPayload kbLower ws ds)) =
      some (digitsToNat ds : Int) := by
  obtain ⟨d, bs, rfl⟩ := List.exists_cons_of_ne_nil hdne
  have hval : (∀ c ∈ (d :: bs), c ≠ '"') ∨
      (∃ d' bs', (d :: bs) = '"' :: ((d' :: bs') ++ ['"']) ∧ d'.isDigit = true ∧
        (∀ c ∈ d' :: bs', c ≠ '"')) :=
    Or.inl (fun c hc => ne_quote_of_isDigit (hd c hc))
  have hvhead : ∃ c r', (d :: bs) = c :: r' ∧ isPySpace c = false :=
    ⟨d, bs, rfl, not_space_of_digit (hd d (by simp))⟩
  have hw1 : reSearch ⟨keyOf kbCamel, false, false⟩ (mkPayload kbLower ws (d :: bs)) = none :=
    reSearch_wrongkey _ 't' (("ransactionId").data ++ ['"', ':']) kbLower ws _ rfl
      (Or.inl rfl) pre_camel_lower (by decide) hws hval
  have hw2 : reSearch ⟨keyOf kbCamel, true, false⟩ (mkPayload kbLower ws (d :: bs)) = none :=
    reSearch_wrongkey _ 't' (("ransactionId").data ++ ['"', ':']) kbLower ws _ rfl
      (Or.inl rfl) pre_camel_lower (by decide) hws hval
  have hw3 : reSearch ⟨keyOf kbCamel, false, true⟩ (mkPayload kbLower ws (d :: bs)) = none :=
    reSearch_wrongkey _ 't' (("ransactionId").data ++ ['"', ':']) kbLower ws _ rfl
      (Or.inl rfl) pre_camel_lower (by decide) hws hval
  have hw4 : reSearch ⟨keyOf kbCamel, true, true⟩ (mkPayload kbLower ws (d :: bs)) = none :=
    reSearch_wrongkey _ 't' (("ransactionId").data ++ ['"', ':']) kbLower ws _ rfl
      (Or.inl rfl) pre_camel_lower (by decide) hws hval
  have hg : matchGroupAt false false ((d :: bs) ++ [rbrace]) = some (d :: bs) :=
    matchGroupAt_false_some (readNumber_false_eq (readDigits_eq (d :: bs) rbrace [] hdne hd (by decide)))
  have h5 : reSearch ⟨keyOf kbLower, false, false⟩ (mkPayload kbLower ws (d :: bs)) =
      some (d :: bs) :=
    reSearch_mkPayload_some _ kbLower ws _ _ rfl hws hvhead hg
  show searchPatternsList txPatterns (mkPayload kbLower ws (d :: bs)) = _
  rw [txPatterns_eq, searchPatternsList_cons_none hw1, searchPatternsList_cons_none hw2,
    searchPatternsList_cons_none hw3, searchPatternsList_cons_none hw4,
    searchPatternsList_cons_some h5, intFloatTrunc_digits _ hd]

/-- Extraction on `{"transactionid":<ws>"<ds>"}`: pattern 6 fires. -/
theorem extract_lower_intQ (ws ds : List Char) (hdne : ds ≠ [])
    (hd : ∀ x ∈ ds, x.isDigit = true) (hws : ∀ c ∈ ws, isPySpace c = true) :
    extract_transaction_id_from_payload (String.mk (mkPayload kbLower ws (vIntQ ds))) =
      some (digitsToNat ds : Int) := by
  obtain ⟨d, bs, rfl⟩ := List.exists_cons_of_ne_nil hdne
  have hval : (∀ c ∈ vIntQ (d :: bs), c ≠ '"') ∨
      (∃ d' bs', vIntQ (d :: bs) = '"' :: ((d' :: bs') ++ ['"']) ∧ d'.isDigit = true ∧
        (∀ c ∈ d' :: bs', c ≠ '"')) :=
    Or.inr ⟨d, bs, rfl, hd d (by simp), fun c hc => ne_quote_of_isDigit (hd c hc)⟩
  have hvhead : ∃ c r', vIntQ (d :: bs) = c :: r' ∧ isPySpace c = false :=
    ⟨'"', (d :: bs) ++ ['"'], rfl, by decide⟩
  have hw1 : reSearch ⟨keyOf kbCamel, false, false⟩ (mkPayload kbLower ws (vIntQ (d :: bs))) = none :=
    reSearch_wrongkey _ 't' (("ransactionId").data ++ ['"', ':']) kbLower ws _ rfl
      (Or.inl rfl) pre_camel_lower (by decide) hws hval
  have hw2 : reSearch ⟨keyOf kbCamel, true, false⟩ (mkPayload kbLower ws (vIntQ (d :: bs))) = none :=
    reSearch_wrongkey _ 't' (("ransactionId").data ++ ['"', ':']) kbLower ws _ rfl
      (Or.inl rfl) pre_camel_lower (by decide) hws hval
  have hw3 : reSearch ⟨keyOf kbCamel, false, true⟩ (mkPayload kbLower ws (vIntQ (d :: bs))) = none :=
    reSearch_wrongkey _ 't' (("ransactionId").data ++ ['"', ':']) kbLower ws _ rfl
      (Or.inl rfl) pre_camel_lower (by decide) hws hval
  have hw4 : reSearch ⟨keyOf kbCamel, true, true⟩ (mkPayload kbLower ws (vIntQ (d :: bs))) = none :=
    reSearch_wrongkey _ 't' (("ransactionId").data ++ ['"', ':']) kbLower ws _ rfl
      (Or.inl rfl) pre_camel_lower (by decide) hws hval
  have hg1 : matchGroupAt false false (vIntQ (d :: bs) ++ [rbrace]) = none := by
    rw [vIntQ_append_rbrace]
    exact matchGroupAt_false_none (readNumber_none_of_digits _
      (readDigits_none_of_head _ _ (by decide)))
  have hg2 : matchGroupAt true false (vIntQ (d :: bs) ++ [rbrace]) = some (d :: bs) := by
    rw [vIntQ_append_rbrace]
    exact matchGroupAt_true_some (readNumber_false_eq
      (readDigits_eq (d :: bs) '"' [rbrace] hdne hd (by decide)))
  have h5 : reSearch ⟨keyOf kbLower, false, false⟩
      (mkPayload kbLower ws (vIntQ (d :: bs))) = none :=
    reSearch_samekey_groupfail _ 't' (("ransactionid").data ++ ['"', ':']) kbLower ws _
      rfl rfl (Or.inl rfl) (by decide) hws hval hvhead hg1
  have h6 : reSearch ⟨keyOf kbLower, true, false⟩
      (mkPayload kbLower ws (vIntQ (d :: bs))) = some (d :: bs) :=
    reSearch_mkPayload_some _ kbLower ws _ _ rfl hws hvhead hg2
  show searchPatternsList txPatterns (mkPayload kbLower ws (vIntQ (d :: bs))) = _
  rw [txPatterns_eq, searchPatternsList_cons_none hw1, searchPatternsList_cons_none hw2,
    searchPatternsList_cons_none hw3, searchPatternsList_cons_none hw4,
    searchPatternsList_cons_none h5, searchPatternsList_cons_some h6,
    intFloatTrunc_digits _ hd]

/-- Extraction on `{"transactionid":<ws><ds>.<fs>}`: pattern 5 captures the
integer part (truncation). -/
theorem extract_lower_frac (ws ds fs : List Char) (hdne : ds ≠ [])
    (hd : ∀ x ∈ ds, x.isDigit = true)
    (hfne : fs ≠ []) (hf : ∀ x ∈ fs, x.isDigit = true)
    (hws : ∀ c ∈ ws, isPySpace c = true) :
    extract_transaction_id_from_payload (String.mk (mkPayload kbLower ws (vFrac ds fs))) =
      some (digitsToNat ds : Int) := by
  obtain ⟨d, bs, rfl⟩ := List.exists_cons_of_ne_nil hdne
  have hval : (∀ c ∈ vFrac (d :: bs) fs, c ≠ '"') ∨
      (∃ d' bs', vFrac (d :: bs) fs = '"' :: ((d' :: bs') ++ ['"']) ∧ d'.isDigit = true ∧
        (∀ c ∈ d' :: bs', c ≠ '"')) := by
    refine Or.inl ?_
    intro c hc
    rcases List.mem_append.mp hc with hc | hc
    · exact ne_quote_of_isDigit (hd _ hc)
    · rcases List.mem_cons.mp hc with rfl | hc
      · decide
      · exact ne_quote_of_isDigit (hf _ hc)
  have hvhead : ∃ c r', vFrac (d :: bs) fs = c :: r' ∧ isPySpace c = false :=
    ⟨d, bs ++ '.' :: fs, rfl, not_space_of_digit (hd d (by simp))⟩
  have hw1 : reSearch ⟨keyOf kbCamel, false, false⟩ (mkPayload kbLower ws (vFrac (d :: bs) fs)) = none :=
    reSearch_wrongkey _ 't' (("ransactionId").data ++ ['"', ':']) kbLower ws _ rfl
      (Or.inl rfl) pre_camel_lower (by decide) hws hval
  have hw2 : reSearch ⟨keyOf kbCamel, true, false⟩ (mkPayload kbLower ws (vFrac (d :: bs) fs)) = none :=
    reSearch_wrongkey _ 't' (("ransactionId").data ++ ['"', ':']) kbLower ws _ rfl
      (Or.inl rfl) pre_camel_lower (by decide) hws hval
  have hw3 : reSearch ⟨keyOf kbCamel, false, true⟩ (mkPayload kbLower ws (vFrac (d :: bs) fs)) = none :=
    reSearch_wrongkey _ 't' (("ransactionId").data ++ ['"', ':']) kbLower ws _ rfl
      (Or.inl rfl) pre_camel_lower (by decide) hws hval
  have hw4 : reSearch ⟨keyOf kbCamel, true, true⟩ (mkPayload kbLower ws (vFrac (d :: bs) fs)) = none :=
    reSearch_wrongkey _ 't' (("ransactionId").data ++ ['"', ':']) kbLower ws _ rfl
      (Or.inl rfl) pre_camel_lower (by decide) hws hval
  have hg : matchGroupAt false false (vFrac (d :: bs) fs ++ [rbrace]) = some (d :: bs) := by
    rw [vFrac_append_rbrace]
    exact matchGroupAt_false_some (readNumber_false_eq
      (readDigits_eq (d :: bs) '.' (fs ++ rbrace :: []) hdne hd (by decide)))
  have h5 : reSearch ⟨keyOf kbLower, false, false⟩
      (mkPayload kbLower ws (vFrac (d :: bs) fs)) = some (d :: bs) :=
    reSearch_mkPayload_some _ kbLower ws _ _ rfl hws hvhead hg
  show searchPatternsList txPatterns (mkPayload kbLower ws (vFrac (d :: bs) fs)) = _
  rw [txPatterns_eq, searchPatternsList_cons_none hw1, searchPatternsList_cons_none hw2,
    searchPatternsList_cons_none hw3, searchPatternsList_cons_none hw4,
    searchPatternsList_cons_some h5, intFloatTrunc_digits _ hd]

/-- Extraction on `{"transactionid":<ws>"<ds>.<fs>"}`: every pattern fails —
the fractional patterns exist only for the `transactionId` casing, and the
integer patterns cannot cross the dot — so the result is `None`. -/
theorem extract_lower_fracQ (ws ds fs : List Char) (hdne : ds ≠ [])
    (hd : ∀ x ∈ ds, x.isDigit = true)
    (hfne : fs ≠ []) (hf : ∀ x ∈ fs, x.isDigit = true)
    (hws : ∀ c ∈ ws, isPySpace c = true) :
    extract_transaction_id_from_payload (String.mk (mkPayload kbLower ws (vFracQ ds fs))) =
      none := by
  obtain ⟨d, bs, rfl⟩ := List.exists_cons_of_ne_nil hdne
  have hshape : vFracQ (d :: bs) fs = '"' :: ((d :: (bs ++ '.' :: fs)) ++ ['"']) := by
    simp [vFracQ, List.cons_append, List.append_assoc]
  have hbody : ∀ c ∈ d :: (bs ++ '.' :: fs), c ≠ '"' := by
    intro c hc
    rcases List.mem_cons.mp hc with rfl | hc
    · exact ne_quote_of_isDigit (hd _ (by simp))
    · rcases List.mem_append.mp hc with hc | hc
      · exact ne_quote_of_isDigit (hd _ (by simp [hc]))
      · rcases List.mem_cons.mp hc with rfl | hc
        · decide
        · exact ne_quote_of_isDigit (hf _ hc)
  have hval : (∀ c ∈ vFracQ (d :: bs) fs, c ≠ '"') ∨
      (∃ d' bs', vFracQ (d :: bs) fs = '"' :: ((d' :: bs') ++ ['"']) ∧ d'.isDigit = true ∧
        (∀ c ∈ d' :: bs', c ≠ '"')) :=
    Or.inr ⟨d, bs ++ '.' :: fs, hshape, hd d (by simp), hbody⟩
  have hvhead : ∃ c r', vFracQ (d :: bs) fs = c :: r' ∧ isPySpace c = false :=
    ⟨'"', (d :: bs) ++ ('.' :: (fs ++ ['"'])),
      by simp [vFracQ, List.cons_append, List.append_assoc], by decide⟩
  have hw1 : reSearch ⟨keyOf kbCamel, false, false⟩ (mkPayload kbLower ws (vFracQ (d :: bs) fs)) = none :=
    reSearch_wrongkey _ 't' (("ransactionId").data ++ ['"', ':']) kbLower ws _ rfl
      (Or.inl rfl) pre_camel_lower (by decide) hws hval
  have hw2 : reSearch ⟨keyOf kbCamel, true, false⟩ (mkPayload kbLower ws (vFracQ (d :: bs) fs)) = none :=
    reSearch_wrongkey _ 't' (("ransactionId").data ++ ['"', ':']) kbLower ws _ rfl
      (Or.inl rfl) pre_camel_lower (by decide) hws hval
  have hw3 : reSearch ⟨keyOf kbCamel, false, true⟩ (mkPayload kbLower ws (vFracQ (d :: bs) fs)) = none :=
    reSearch_wrongkey _ 't' (("ransactionId").data ++ ['"', ':']) kbLower ws _ rfl
      (Or.inl rfl) pre_camel_lower (by decide) hws hval
  have hw4 : reSearch ⟨keyOf kbCamel, true, true⟩ (mkPayload kbLower ws (vFracQ (d :: bs) fs)) = none :=
    reSearch_wrongkey _ 't' (("ransactionId").data ++ ['"', ':']) kbLower ws _ rfl
      (Or.inl rfl) pre_camel_lower (by decide) hws hval
  have hg5 : matchGroupAt false false (vFracQ (d :: bs) fs ++ [rbrace]) = none := by
    rw [vFracQ_append_rbrace]
    exact matchGroupAt_false_none (readNumber_none_of_digits _
      (readDigits_none_of_head _ _ (by decide)))
  have hg6 : matchGroupAt true false (vFracQ (d :: bs) fs ++ [rbrace]) = none := by
    rw [vFracQ_append_rbrace]
    exact matchGroupAt_true_closefail (readNumber_false_eq
      (readDigits_eq (d :: bs) '.' (fs ++ ('"' :: [rbrace])) hdne hd (by decide))) (by decide)
  have h5 : reSearch ⟨keyOf kbLower, false, false⟩
      (mkPayload kbLower ws (vFracQ (d :: bs) fs)) = none :=
    reSearch_samekey_groupfail _ 't' (("ransactionid").data ++ ['"', ':']) kbLower ws _
      rfl rfl (Or.inl rfl) (by decide) hws hval hvhead hg5
  have h6 : reSearch ⟨keyOf kbLower, true, false⟩
      (mkPayload kbLower ws (vFracQ (d :: bs) fs)) = none :=
    reSearch_samekey_groupfail _ 't' (("ransactionid").data ++ ['"', ':']) kbLower ws _
      rfl rfl (Or.inl rfl) (by decide) hws hval hvhead hg6
  have hw7 : reSearch ⟨keyOf kbPascal, false, false⟩ (mkPayload kbLower ws (vFracQ (d :: bs) fs)) = none :=
    reSearch_wrongkey _ 'T' (("ransactionId").data ++ ['"', ':']) kbLower ws _ rfl
      (Or.inr rfl) pre_pascal_lower (by decide) hws hval
  have hw8 : reSearch ⟨keyOf kbPascal, true, false⟩ (mkPayload kbLower ws (vFracQ (d :: bs) fs)) = none :=
    reSearch_wrongkey _ 'T' (("ransactionId").data ++ ['"', ':']) kbLower ws _ rfl
      (Or.inr rfl) pre_pascal_lower (by decide) hws hval
  show searchPatternsList txPatterns (mkPayload kbLower ws (vFracQ (d :: bs) fs)) = none
  rw [txPatterns_eq, searchPatternsList_cons_none hw1, searchPatternsList_cons_none hw2,
    searchPatternsList_cons_none hw3, searchPatternsList_cons_none hw4,
    searchPatternsList_cons_none h5, searchPatternsList_cons_none h6,
    searchPatternsList_cons_none hw7, searchPatternsList_cons_none hw8]
  rfl

/-- Extraction on `{"TransactionId":<ws><ds>}`: pattern 7 fires. -/
theorem extract_pascal_int (ws ds : List Char) (hdne : ds ≠ [])
    (hd : ∀ x ∈ ds, x.isDigit = true) (hws : ∀ c ∈ ws, isPySpace c = true) :
    extract_transaction_id_from_payload (String.mk (mkPayload kbPascal ws ds)) =
      some (digitsToNat ds : Int) := by
  obtain ⟨d, bs, rfl⟩ := List.exists_cons_of_ne_nil hdne
  have hval : (∀ c ∈ (d :: bs), c ≠ '"') ∨
      (∃ d' bs', (d :: bs) = '"' :: ((d' :: bs') ++ ['"']) ∧ d'.isDigit = true ∧
        (∀ c ∈ d' :: bs', c ≠ '"')) :=
    Or.inl (fun c hc => ne_quote_of_isDigit (hd c hc))
  have hvhead : ∃ c r', (d :: bs) = c :: r' ∧ isPySpace c = false :=
    ⟨d, bs, rfl, not_space_of_digit (hd d (by simp))⟩
  have hw1 : reSearch ⟨keyOf kbCamel, false, false⟩ (mkPayload kbPascal ws (d :: bs)) = none :=
    reSearch_wrongkey _ 't' (("ransactionId").data ++ ['"', ':']) kbPascal ws _ rfl
      (Or.inl rfl) pre_camel_pascal (by decide) hws hval
  have hw2 : reSearch ⟨keyOf kbCamel, true, false⟩ (mkPayload kbPascal ws (d :: bs)) = none :=
    reSearch_wrongkey _ 't' (("ransactionId").data ++ ['"', ':']) kbPascal ws _ rfl
      (Or.inl rfl) pre_camel_pascal (by decide) hws hval
  have hw3 : reSearch ⟨keyOf kbCamel, false, true⟩ (mkPayload kbPascal ws (d :: bs)) = none :=
    reSearch_wrongkey _ 't' (("ransactionId").data ++ ['"', ':']) kbPascal ws _ rfl
      (Or.inl rfl) pre_camel_pascal (by decide) hws hval
  have hw4 : reSearch ⟨keyOf kbCamel, true, true⟩ (mkPayload kbPascal ws (d :: bs)) = none :=
    reSearch_wrongkey _ 't' (("ransactionId").data ++ ['"', ':']) kbPascal ws _ rfl
      (Or.inl rfl) pre_camel_pascal (by decide) hws hval
  have hw5 : reSearch ⟨keyOf kbLower, false, false⟩ (mkPayload kbPascal ws (d :: bs)) = none :=
    reSearch_wrongkey _ 't' (("ransactionid").data ++ ['"', ':']) kbPascal ws _ rfl
      (Or.inl rfl) pre_lower_pascal (by decide) hws hval
  have hw6 : reSearch ⟨keyOf kbLower, true, false⟩ (mkPayload kbPascal ws (d :: bs)) = none :=
    reSearch_wrongkey _ 't' (("ransactionid").data ++ ['"', ':']) kbPascal ws _ rfl
      (Or.inl rfl) pre_lower_pascal (by decide) hws hval
  have hg : matchGroupAt false false ((d :: bs) ++ [rbrace]) = some (d :: bs) :=
    matchGroupAt_false_some (readNumber_false_eq (readDigits_eq (d :: bs) rbrace [] hdne hd (by decide)))
  have h7 : reSearch ⟨keyOf kbPascal, false, false⟩ (mkPayload kbPascal ws (d :: bs)) =
      some (d :: bs) :=
    reSearch_mkPayload_some _ kbPascal ws _ _ rfl hws hvhead hg
  show searchPatternsList txPatterns (mkPayload kbPascal ws (d :: bs)) = _
  rw [txPatterns_eq, searchPatternsList_cons_none hw1, searchPatternsList_cons_none hw2,
    searchPatternsList_cons_none hw3, searchPatternsList_cons_none hw4,
    searchPatternsList_cons_none hw5, searchPatternsList_cons_none hw6,
    searchPatternsList_cons_some h7, intFloatTrunc_digits _ hd]

/-- Extraction on `{"TransactionId":<ws>"<ds>"}`: pattern 8 fires. -/
theorem extract_pascal_intQ (ws ds : List Char) (hdne : ds ≠ [])
    (hd : ∀ x ∈ ds, x.isDigit = true) (hws : ∀ c ∈ ws, isPySpace c = true) :
    extract_transaction_id_from_payload (String.mk (mkPayload kbPascal ws (vIntQ ds))) =
      some (digitsToNat ds : Int) := by
  obtain ⟨d, bs, rfl⟩ := List.exists_cons_of_ne_nil hdne
  have hval : (∀ c ∈ vIntQ (d :: bs), c ≠ '"') ∨
      (∃ d' bs', vIntQ (d :: bs) = '"' :: ((d' :: bs') ++ ['"']) ∧ d'.isDigit = true ∧
        (∀ c ∈ d' :: bs', c ≠ '"')) :=
    Or.inr ⟨d, bs, rfl, hd d (by simp), fun c hc => ne_quote_of_isDigit (hd c hc)⟩
  have hvhead : ∃ c r', vIntQ (d :: bs) = c :: r' ∧ isPySpace c = false :=
    ⟨'"', (d :: bs) ++ ['"'], rfl, by decide⟩
  have hw1 : reSearch ⟨keyOf kbCamel, false, false⟩ (mkPayload kbPascal ws (vIntQ (d :: bs))) = none :=
    reSearch_wrongkey _ 't' (("ransactionId").data ++ ['"', ':']) kbPascal ws _ rfl
      (Or.inl rfl) pre_camel_pascal (by decide) hws hval
  have hw2 : reSearch ⟨keyOf kbCamel, true, false⟩ (mkPayload kbPascal ws (vIntQ (d :: bs))) = none :=
    reSearch_wrongkey _ 't' (("ransactionId").data ++ ['"', ':']) kbPascal ws _ rfl
      (Or.inl rfl) pre_camel_pascal (by decide) hws hval
  have hw3 : reSearch ⟨keyOf kbCamel, false, true⟩ (mkPayload kbPascal ws (vIntQ (d :: bs))) = none :=
    reSearch_wrongkey _ 't' (("ransactionId").data ++ ['"', ':']) kbPascal ws _ rfl
      (Or.inl rfl) pre_camel_pascal (by decide) hws hval
  have hw4 : reSearch ⟨keyOf kbCamel, true, true⟩ (mkPayload kbPascal ws (vIntQ (d :: bs))) = none :=
    reSearch_wrongkey _ 't' (("ransactionId").data ++ ['"', ':']) kbPascal ws _ rfl
      (Or.inl rfl) pre_camel_pascal (by decide) hws hval
  have hw5 : reSearch ⟨keyOf kbLower, false, false⟩ (mkPayload kbPascal ws (vIntQ (d :: bs))) = none :=
    reSearch_wrongkey _ 't' (("ransactionid").data ++ ['"', ':']) kbPascal ws _ rfl
      (Or.inl rfl) pre_lower_pascal (by decide) hws hval
  have hw6 : reSearch ⟨keyOf kbLower, true, false⟩ (mkPayload kbPascal ws (vIntQ (d :: bs))) = none :=
    reSearch_wrongkey _ 't' (("ransactionid").data ++ ['"', ':']) kbPascal ws _ rfl
      (Or.inl rfl) pre_lower_pascal (by decide) hws hval
  have hg1 : matchGroupAt false false (vIntQ (d :: bs) ++ [rbrace]) = none := by
    rw [vIntQ_append_rbrace]
    exact matchGroupAt_false_none (readNumber_none_of_digits _
      (readDigits_none_of_head _ _ (by decide)))
  have hg2 : matchGroupAt true false (vIntQ (d :: bs) ++ [rbrace]) = some (d :: bs) := by
    rw [vIntQ_append_rbrace]
    exact matchGroupAt_true_some (readNumber_false_eq
      (readDigits_eq (d :: bs) '"' [rbrace] hdne hd (by decide)))
  have h7 : reSearch ⟨keyOf kbPascal, false, false⟩
      (mkPayload kbPascal ws (vIntQ (d :: bs))) = none :=
    reSearch_samekey_groupfail _ 'T' (("ransactionId").data ++ ['"', ':']) kbPascal ws _
      rfl rfl (Or.inr rfl) (by decide) hws hval hvhead hg1
  have h8 : reSearch ⟨keyOf kbPascal, true, false⟩
      (mkPayload kbPascal ws (vIntQ (d :: bs))) = some (d :: bs) :=
    reSearch_mkPayload_some _ kbPascal ws _ _ rfl hws hvhead hg2
  show searchPatternsList txPatterns (mkPayload kbPascal ws (vIntQ (d :: bs))) = _
  rw [txPatterns_eq, searchPatternsList_cons_none hw1, searchPatternsList_cons_none hw2,
    searchPatternsList_cons_none hw3, searchPatternsList_cons_none hw4,
    searchPatternsList_cons_none hw5, searchPatternsList_cons_none hw6,
    searchPatternsList_cons_none h7, searchPatternsList_cons_some h8,
    intFloatTrunc_digits _ hd]

/-- Extraction on `{"TransactionId":<ws><ds>.<fs>}`: pattern 7 captures the
integer part (truncation). -/
theorem extract_pascal_frac (ws ds fs : List Char) (hdne : ds ≠ [])
    (hd : ∀ x ∈ ds, x.isDigit = true)
    (hfne : fs ≠ []) (hf : ∀ x ∈ fs, x.isDigit = true)
    (hws : ∀ c ∈ ws, isPySpace c = true) :
    extract_transaction_id_from_payload (String.mk (mkPayload kbPascal ws (vFrac ds fs))) =
      some (digitsToNat ds : Int) := by
  obtain ⟨d, bs, rfl⟩ := List.exists_cons_of_ne_nil hdne
  have hval : (∀ c ∈ vFrac (d :: bs) fs, c ≠ '"') ∨
      (∃ d' bs', vFrac (d :: bs) fs = '"' :: ((d' :: bs') ++ ['"']) ∧ d'.isDigit = true ∧
        (∀ c ∈ d' :: bs', c ≠ '"')) := by
    refine Or.inl ?_
    intro c hc
    rcases List.mem_append.mp hc with hc | hc
    · exact ne_quote_of_isDigit (hd _ hc)
    · rcases List.mem_cons.mp hc with rfl | hc
      · decide
      · exact ne_quote_of_isDigit (hf _ hc)
  have hvhead : ∃ c r', vFrac (d :: bs) fs = c :: r' ∧ isPySpace c = false :=
    ⟨d, bs ++ '.' :: fs, rfl, not_space_of_digit (hd d (by simp))⟩
  have hw1 : reSearch ⟨keyOf kbCamel, false, false⟩ (mkPayload kbPascal ws (vFrac (d :: bs) fs)) = none :=
    reSearch_wrongkey _ 't' (("ransactionId").data ++ ['"', ':']) kbPascal ws _ rfl
      (Or.inl rfl) pre_camel_pascal (by decide) hws hval
  have hw2 : reSearch ⟨keyOf kbCamel, true, false⟩ (mkPayload kbPascal ws (vFrac (d :: bs) fs)) = none :=
    reSearch_wrongkey _ 't' (("ransactionId").data ++ ['"', ':']) kbPascal ws _ rfl
      (Or.inl rfl) pre_camel_pascal (by decide) hws hval
  have hw3 : reSearch ⟨keyOf kbCamel, false, true⟩ (mkPayload kbPascal ws (vFrac (d :: bs) fs)) = none :=
    reSearch_wrongkey _ 't' (("ransactionId").data ++ ['"', ':']) kbPascal ws _ rfl
      (Or.inl rfl) pre_camel_pascal (by decide) hws hval
  have hw4 : reSearch ⟨keyOf kbCamel, true, true⟩ (mkPayload kbPascal ws (vFrac (d :: bs) fs)) = none :=
    reSearch_wrongkey _ 't' (("ransactionId").data ++ ['"', ':']) kbPascal ws _ rfl
      (Or.inl rfl) pre_camel_pascal (by decide) hws hval
  have hw5 : reSearch ⟨keyOf kbLower, false, false⟩ (mkPayload kbPascal ws (vFrac (d :: bs) fs)) = none :=
    reSearch_wrongkey _ 't' (("ransactionid").data ++ ['"', ':']) kbPascal ws _ rfl
      (Or.inl rfl) pre_lower_pascal (by decide) hws hval
  have hw6 : reSearch ⟨keyOf kbLower, true, false⟩ (mkPayload kbPascal ws (vFrac (d :: bs) fs)) = none :=
    reSearch_wrongkey _ 't' (("ransactionid").data ++ ['"', ':']) kbPascal ws _ rfl
      (Or.inl rfl) pre_lower_pascal (by decide) hws hval
  have hg : matchGroupAt false false (vFrac (d :: bs) fs ++ [rbrace]) = some (d :: bs) := by
    rw [vFrac_append_rbrace]
    exact matchGroupAt_false_some (readNumber_false_eq
      (readDigits_eq (d :: bs) '.' (fs ++ rbrace :: []) hdne hd (by decide)))
  have h7 : reSearch ⟨keyOf kbPascal, false, false⟩
      (mkPayload kbPascal ws (vFrac (d :: bs) fs)) = some (d :: bs) :=
    reSearch_mkPayload_some _ kbPascal ws _ _ rfl hws hvhead hg
  show searchPatternsList txPatterns (mkPayload kbPascal ws (vFrac (d :: bs) fs)) = _
  rw [txPatterns_eq, searchPatternsList_cons_none hw1, searchPatternsList_cons_none hw2,
    searchPatternsList_cons_none hw3, searchPatternsList_cons_none hw4,
    searchPatternsList_cons_none hw5, searchPatternsList_cons_none hw6,
    searchPatternsList_cons_some h7, intFloatTrunc_digits _ hd]

/-- Extraction on `{"TransactionId":<ws>"<ds>.<fs>"}`: every pattern fails and
the result is `None`. -/
theorem extract_pascal_fracQ (ws ds fs : List Char) (hdne : ds ≠ [])
    (hd : ∀ x ∈ ds, x.isDigit = true)
    (hfne : fs ≠ []) (hf : ∀ x ∈ fs, x.isDigit = true)
    (hws : ∀ c ∈ ws, isPySpace c = true) :
    extract_transaction_id_from_payload (String.mk (mkPayload kbPascal ws (vFracQ ds fs))) =
      none := by
  obtain ⟨d, bs, rfl⟩ := List.exists_cons_of_ne_nil hdne
  have hshape : vFracQ (d :: bs) fs = '"' :: ((d :: (bs ++ '.' :: fs)) ++ ['"']) := by
    simp [vFracQ, List.cons_append, List.append_assoc]
  have hbody : ∀ c ∈ d :: (bs ++ '.' :: fs), c ≠ '"' := by
    intro c hc
    rcases List.mem_cons.mp hc with rfl | hc
    · exact ne_quote_of_isDigit (hd _ (by simp))
    · rcases List.mem_append.mp hc with hc | hc
      · exact ne_quote_of_isDigit (hd _ (by simp [hc]))
      · rcases List.mem_cons.mp hc with rfl | hc
        · decide
        · exact ne_quote_of_isDigit (hf _ hc)
  have hval : (∀ c ∈ vFracQ (d :: bs) fs, c ≠ '"') ∨
      (∃ d' bs', vFracQ (d :: bs) fs = '"' :: ((d' :: bs') ++ ['"']) ∧ d'.isDigit = true ∧
        (∀ c ∈ d' :: bs', c ≠ '"')) :=
    Or.inr ⟨d, bs ++ '.' :: fs, hshape, hd d (by simp), hbody⟩
  have hvhead : ∃ c r', vFracQ (d :: bs) fs = c :: r' ∧ isPySpace c = false :=
    ⟨'"', (d :: bs) ++ ('.' :: (fs ++ ['"'])),
      by simp [vFracQ, List.cons_append, List.append_assoc], by decide⟩
  have hw1 : reSearch ⟨keyOf kbCamel, false, false⟩ (mkPayload kbPascal ws (vFracQ (d :: bs) fs)) = none :=
    reSearch_wrongkey _ 't' (("ransactionId").data ++ ['"', ':']) kbPascal ws _ rfl
      (Or.inl rfl) pre_camel_pascal (by decide) hws hval
  have hw2 : reSearch ⟨keyOf kbCamel, true, false⟩ (mkPayload kbPascal ws (vFracQ (d :: bs) fs)) = none :=
    reSearch_wrongkey _ 't' (("ransactionId").data ++ ['"', ':']) kbPascal ws _ rfl
      (Or.inl rfl) pre_camel_pascal (by decide) hws hval
  have hw3 : reSearch ⟨keyOf kbCamel, false, true⟩ (mkPayload kbPascal ws (vFracQ (d :: bs) fs)) = none :=
    reSearch_wrongkey _ 't' (("ransactionId").data ++ ['"', ':']) kbPascal ws _ rfl
      (Or.inl rfl) pre_camel_pascal (by decide) hws hval
  have hw4 : reSearch ⟨keyOf kbCamel, true, true⟩ (mkPayload kbPascal ws (vFracQ (d :: bs) fs)) = none :=
    reSearch_wrongkey _ 't' (("ransactionId").data ++ ['"', ':']) kbPascal ws _ rfl
      (Or.inl rfl) pre_camel_pascal (by decide) hws hval
  have hw5 : reSearch ⟨keyOf kbLower, false, false⟩ (mkPayload kbPascal ws (vFracQ (d :: bs) fs)) = none :=
    reSearch_wrongkey _ 't' (("ransactionid").data ++ ['"', ':']) kbPascal ws _ rfl
      (Or.inl rfl) pre_lower_pascal (by decide) hws hval
  have hw6 : reSearch ⟨keyOf kbLower, true, false⟩ (mkPayload kbPascal ws (vFracQ (d :: bs) fs)) = none :=
    reSearch_wrongkey _ 't' (("ransactionid").data ++ ['"', ':']) kbPascal ws _ rfl
      (Or.inl rfl) pre_lower_pascal (by decide) hws hval
  have hg7 : matchGroupAt false false (vFracQ (d :: bs) fs ++ [rbrace]) = none := by
    rw [vFracQ_append_rbrace]
    exact matchGroupAt_false_none (readNumber_none_of_digits _
      (readDigits_none_of_head _ _ (by decide)))
  have hg8 : matchGroupAt true false (vFracQ (d :: bs) fs ++ [rbrace]) = none := by
    rw [vFracQ_append_rbrace]
    exact matchGroupAt_true_closefail (readNumber_false_eq
      (readDigits_eq (d :: bs) '.' (fs ++ ('"' :: [rbrace])) hdne hd (by decide))) (by decide)
  have h7 : reSearch ⟨keyOf kbPascal, false, false⟩
      (mkPayload kbPascal ws (vFracQ (d :: bs) fs)) = none :=
    reSearch_samekey_groupfail _ 'T' (("ransactionId").data ++ ['"', ':']) kbPascal ws _
      rfl rfl (Or.inr rfl) (by decide) hws hval hvhead hg7
  have h8 : reSearch ⟨keyOf kbPascal, true, false⟩
      (mkPayload kbPascal ws (vFracQ (d :: bs) fs)) = none :=
    reSearch_samekey_groupfail _ 'T' (("ransactionId").data ++ ['"', ':']) kbPascal ws _
      rfl rfl (Or.inr rfl) (by decide) hws hval hvhead hg8
  show searchPatternsList txPatterns (mkPayload kbPascal ws (vFracQ (d :: bs) fs)) = none
  rw [txPatterns_eq, searchPatternsList_cons_none hw1, searchPatternsList_cons_none hw2,
    searchPatternsList_cons_none hw3, searchPatternsList_cons_none hw4,
    searchPatternsList_cons_none hw5, searchPatternsList_cons_none hw6,
    searchPatternsList_cons_none h7, searchPatternsList_cons_none h8]
  rfl

/-- A successful extraction means some pattern's search succeeded. -/
theorem searchPatternsList_some_imp {ps : List TxPattern} {s : List Char} {n : Int}
    (h : searchPatternsList ps s = some n) :
    ∃ p ∈ ps, ∃ g, reSearch p s = some g := by
  induction ps with
  | nil => simp [searchPatternsList] at h
  | cons p ps ih =>
    cases hr : reSearch p s with
    | some g => exact ⟨p, by simp, g, hr⟩
    | none =>
      rw [searchPatternsList_cons_none hr] at h
      obtain ⟨p', hp', g, hg⟩ := ih h
      exact ⟨p', by simp [hp'], g, hg⟩

/-- A successful search means the pattern's key occurs in the string. -/
theorem reSearch_some_decomp {p : TxPattern} {s g : List Char}
    (h : reSearch p s = some g) : ∃ l r, s = l ++ (p.key ++ r) := by
  induction s with
  | nil => simp [reSearch] at h
  | cons c cs ih =>
    cases hb : p.key.isPrefixOf (c :: cs) with
    | true =>
      obtain ⟨t, ht⟩ := isPrefixOf_true_iff.mp hb
      exact ⟨[], t, by simp [ht]⟩
    | false =>
      have hm : matchPatternAt p (c :: cs) = none := by
        unfold matchPatternAt
        rw [hb]
        simp
      rw [reSearch_cons_none hm] at h
      obtain ⟨l, r, hl⟩ := ih h
      exact ⟨c :: l, r, by rw [hl]; rfl⟩

/-- Any successful extraction implies the payload contains (up to case) the
substring `"transactionid":`; contrapositively, a payload matching none of
the patterns yields `None`. -/
theorem extract_some_contains (payload : String) (n : Int)
    (h : extract_transaction_id_from_payload payload = some n) :
    strContainsCI payload "\"transactionid\":" = true := by
  obtain ⟨p, hp, g, hg⟩ := searchPatternsList_some_imp h
  obtain ⟨l, r, hdecomp⟩ := reSearch_some_decomp hg
  have hkey : List.map pyLower p.key = keyOf kbLower := by
    rw [txPatterns_eq] at hp
    simp only [List.mem_cons, List.not_mem_nil, or_false] at hp
    rcases hp with rfl | rfl | rfl | rfl | rfl | rfl | rfl | rfl <;> decide
  have hlit : (strLower "\"transactionid\":").data = keyOf kbLower := by decide
  show listContainsSeq (strLower "\"transactionid\":").data (strLower payload).data = true
  have hdata : (strLower payload).data = List.map pyLower payload.data := rfl
  rw [hlit, hdata, hdecomp, List.map_append, List.map_append, hkey]
  exact listContainsSeq_true_iff.mpr ⟨List.map pyLower l, List.map pyLower r, rfl⟩

/-- C3 fails as stated: the payload `{"transactionid": "3.5"}` carries the
field in one of the listed casings, with whitespace after the colon and a
quoted fractional value, yet extraction returns `None` instead of 3 — the
fractional regex alternatives exist only for the exact casing
`transactionId`. -/
theorem C3_extract_transaction_id_counterexample :
    extract_transaction_id_from_payload "\x7b\"transactionid\": \"3.5\"\x7d" = none := by
  decide

/-- C3, amended.  On canonical payloads `{"<key>":<ws><value>}` with any of
the three casings, optional whitespace and an integer value (quoted or not),
extraction returns the integer; an unquoted fractional value is truncated
toward zero for every casing; a QUOTED fractional value is recognized (and
truncated) only for the exact casing `transactionId` — for `transactionid`
and `TransactionId` it yields `None`.  Finally, a payload that does not even
contain `"transactionid":` up to case (hence matches no pattern) yields
`None` (stated contrapositively).  The value is restricted to at most 15
significant digits (`hlen`): that is the range on which the embedding's
decimal truncation provably coincides with Python's `int(float(...))`
round-then-truncate (see `intFloatTrunc`); outside it Python's float
rounding can change the result, e.g. `int(float("2.9999999999999999")) = 3`,
and the claim's "returns the integer N" is not what the program computes. -/
theorem C3_extract_transaction_id_amended (ws ds fs : List Char)
    (hdne : ds ≠ []) (hd : ∀ x ∈ ds, x.isDigit = true)
    (hfne : fs ≠ []) (hf : ∀ x ∈ fs, x.isDigit = true)
    (hws : ∀ c ∈ ws, isPySpace c = true)
    (hlen : ds.length + fs.length ≤ 15) :
    (extract_transaction_id_from_payload (String.mk (mkPayload kbCamel ws ds)) =
      some (digitsToNat ds : Int)) ∧
    (extract_transaction_id_from_payload (String.mk (mkPayload kbLower ws ds)) =
      some (digitsToNat ds : Int)) ∧
    (extract_transaction_id_from_payload (String.mk (mkPayload kbPascal ws ds)) =
      some (digitsToNat ds : Int)) ∧
    (extract_transaction_id_from_payload (String.mk (mkPayload kbCamel ws (vIntQ ds))) =
      some (digitsToNat ds : Int)) ∧
    (extract_transaction_id_from_payload (String.mk (mkPayload kbLower ws (vIntQ ds))) =
      some (digitsToNat ds : Int)) ∧
    (extract_transaction_id_from_payload (String.mk (mkPayload kbPascal ws (vIntQ ds))) =
      some (digitsToNat ds : Int)) ∧
    (extract_transaction_id_from_payload (String.mk (mkPayload kbCamel ws (vFrac ds fs))) =
      some (digitsToNat ds : Int)) ∧
    (extract_transaction_id_from_payload (String.mk (mkPayload kbLower ws (vFrac ds fs))) =
      some (digitsToNat ds : Int)) ∧
    (extract_transaction_id_from_payload (String.mk (mkPayload kbPascal ws (vFrac ds fs))) =
      some (digitsToNat ds : Int)) ∧
    (extract_transaction_id_from_payload (String.mk (mkPayload kbCamel ws (vFracQ ds fs))) =
      some (digitsToNat ds : Int)) ∧
    (extract_transaction_id_from_payload (String.mk (mkPayload kbLower ws (vFracQ ds fs))) =
      none) ∧
    (extract_transaction_id_from_payload (String.mk (mkPayload kbPascal ws (vFracQ ds fs))) =
      none) ∧
    (∀ (payload : String) (n : Int),
      extract_transaction_id_from_payload payload = some n →
      strContainsCI payload "\"transactionid\":" = true) :=
  ⟨extract_camel_int ws ds hdne hd hws,
   extract_lower_int ws ds hdne hd hws,
   extract_pascal_int ws ds hdne hd hws,
   extract_camel_intQ ws ds hdne hd hws,
   extract_lower_intQ ws ds hdne hd hws,
   extract_pascal_intQ ws ds hdne hd hws,
   extract_camel_frac ws ds fs hdne hd hfne hf hws,
   extract_lower_frac ws ds fs hdne hd hfne hf hws,
   extract_pascal_frac ws ds fs hdne hd hfne hf hws,
   extract_camel_fracQ ws ds fs hdne hd hfne hf hws,
   extract_lower_fracQ ws ds fs hdne hd hfne hf hws,
   extract_pascal_fracQ ws ds fs hdne hd hfne hf hws,
   extract_some_contains⟩

/-- Witness for the amended C3 at digits `4` / fraction `5` / one space:
the camel quoted-fraction payload extracts `4`, the lowercase one yields
`None`. -/
theorem C3_extract_transaction_id_amended_witness :
    (extract_transaction_id_from_payload
      (String.mk (mkPayload kbCamel [' '] (vFracQ ['4'] ['5']))) = some (4 : Int)) ∧
    (extract_transaction_id_from_payload
      (String.mk (mkPayload kbLower [' '] (vFracQ ['4'] ['5']))) = none) :=
  ⟨(C3_extract_transaction_id_amended [' '] ['4'] ['5'] (by decide) (by decide)
      (by decide) (by decide) (by decide) (by decide)).2.2.2.2.2.2.2.2.2.1,
   (C3_extract_transaction_id_amended [' '] ['4'] ['5'] (by decide) (by decide)
      (by decide) (by decide) (by decide) (by decide)).2.2.2.2.2.2.2.2.2.2.1⟩
